import Mathlib

/-!
Verification of the k8-automation application reconciliation engine.

This file gives a shallow embedding, in Lean 4, of the core of the
k8-automation repository (src/src/k8.ts and the name derivation of
src/unnamed/part_002) and proves properties of it: the ingress rule
algebra (ingressPatch, ingressRemove), the overlay merge used by the
deployment and service templates (lodash mergeWith with the smartMerge
customizer), the upsert and delete pipelines (upsertApplication,
deleteApplication) against an abstract cluster oracle, the name
derivation (cleanName), and the retry wrapper (retryP).

JavaScript-specific behavior is modelled explicitly: string truthiness
(the empty string is falsy), undefined optional fields as Option, thrown
exceptions as Except.error, and in-place mutation of the shared ingress
value as explicit state passing (each ingress-algebra function returns
the value of its ingress argument after the call).
-/

namespace K8

/-- JavaScript truthiness of an optional string field: undefined and the
empty string are falsy. -/
def strTruthy : Option String → Bool
  | none => false
  | some s => !(s == "")

/-- JavaScript truthiness of an optional numeric field: undefined and 0 are
falsy. -/
def natTruthy : Option Nat → Bool
  | none => false
  | some n => !(n == 0)

/-! ## Name derivation (src/unnamed/part_002)

The source defines a fixed join token and cleanName, which lower-cases its
argument, replaces every maximal run of characters outside [a-z0-9-] with
the join token (the regex in the source uses a + quantifier, so a run is
replaced by a single copy of the token), and wraps the result with the
prefix "r" and the suffix "9".
-/

/-- The fixed separator token (const joinString = "-0-" in part_002). -/
def joinString : String := "-0-"

/-- Characters the cleaned name may keep: the class [a-z0-9-] of the
replacement regex in part_002. -/
def isNameChar (c : Char) : Bool :=
  (decide ('a' ≤ c) && decide (c ≤ 'z')) || (decide ('0' ≤ c) && decide (c ≤ '9')) || (c == '-')

/-- Replacement of every maximal run of characters outside [a-z0-9-] by the
join token, mirroring String.prototype.replace with the global regex of
part_002 (the + quantifier makes runs maximal).  The Boolean argument
records whether the previous character belonged to a run being replaced, so
a maximal run contributes a single copy of the token. -/
def replaceRunsAux : Bool → List Char → List Char
  | _, [] => []
  | prevBad, c :: cs =>
    if isNameChar c then c :: replaceRunsAux false cs
    else if prevBad then replaceRunsAux true cs
    else joinString.data ++ replaceRunsAux true cs

/-- Replacement of every maximal run of characters outside [a-z0-9-] by the
join token (see replaceRunsAux). -/
def replaceRuns (l : List Char) : List Char :=
  replaceRunsAux false l

/-- cleanName from part_002: lower-case (toLocaleLowerCase; the inputs are
ASCII identifiers, modelled with Char.toLower), replace invalid runs, and
wrap with the fixed prefix and suffix. -/
def cleanName (name : String) : String :=
  "r" ++ String.mk (replaceRuns (name.data.map Char.toLower)) ++ "9"

/-- Modelled from the spec: the spec (section 4.1) describes name derivation
over an ordered sequence of parts joined with the fixed separator token,
while the source (part_002) only joins exactly two identity parts, e.g.
resourceName joins owner and repo with joinString and applies cleanName.
deriveName joins the given parts with the separator token and cleans the
result; cleanName itself is taken from the source. -/
def deriveName (parts : List String) : String :=
  cleanName (String.intercalate joinString parts)

/-! ## JSON values

The resource templates are plain JavaScript objects and the overlay specs
are parsed JSON, so both are modelled by a JSON value type.  Object fields
are an ordered association list, as JavaScript objects preserve insertion
order.  All numbers occurring in the templates and overlays are integers
and the engine never computes with them, so numbers are modelled as Int. -/
inductive Json where
  | null
  | bool (b : Bool)
  | num (n : Int)
  | str (s : String)
  | arr (elts : List Json)
  | obj (fields : List (String × Json))

/-- Field lookup in a JavaScript object (first binding wins). -/
def lookupF : List (String × Json) → String → Option Json
  | [], _ => none
  | (k', v) :: fs, k => if k' = k then some v else lookupF fs k

/-- Field assignment in a JavaScript object: overwrite the binding in place
if the key is present, else append the new binding (JavaScript property
insertion order). -/
def setField : List (String × Json) → String → Json → List (String × Json)
  | [], k, v => [(k, v)]
  | (k', v') :: fs, k, v => if k' = k then (k', v) :: fs else (k', v') :: setField fs k v

mutual

/-- Per-key merge of lodash mergeWith with the smartMerge customizer of
k8.ts lines 699-703.  The customizer returns the source value whenever it
is an array, so arrays replace wholesale; for a plain-object source lodash
merges recursively into a plain-object destination and otherwise clones the
source; for a primitive source lodash assigns it.  When the destination is
an array and the source a plain object, JavaScript grafts the object keys
onto the array producing a value outside the JSON domain; that case is
modelled as none (no claim depends on it). -/
def mergeValue : Option Json → Json → Option Json
  | _, .arr xs => some (.arr xs)
  | some (.obj of), .obj sf => (mergeObj of sf).map Json.obj
  | some (.arr _), .obj _ => none
  | _, .obj sf => some (.obj sf)
  | _, sv => some sv
termination_by _ s => sizeOf s

/-- Key-by-key merge of a source object into a destination object, in the
source's field order, as lodash baseMerge iterates the source keys. -/
def mergeObj : List (String × Json) → List (String × Json) → Option (List (String × Json))
  | of, [] => some of
  | of, (k, sv) :: sfs =>
    match mergeValue (lookupF of k) sv with
    | none => none
    | some nv => mergeObj (setField of k nv) sfs
termination_by _ sf => sizeOf sf

end

/-- Array elements keyed by their stringified indices: lodash iterates an
array source by its index keys when merging it into an object. -/
def indexFields (i : Nat) : List Json → List (String × Json)
  | [] => []
  | x :: xs => (toString i, x) :: indexFields (i + 1) xs

/-- Top-level _.mergeWith(dest, src, smartMerge) on JSON values.  The
destination is always a freshly built template object in this code base; a
primitive source contributes no keys and leaves the destination unchanged. -/
def mergeWithSmart : Json → Json → Option Json
  | .obj of, .obj sf => (mergeObj of sf).map Json.obj
  | .obj of, .arr xs => (mergeObj of (indexFields 0 xs)).map Json.obj
  | .obj of, _ => some (.obj of)
  | d, _ => some d

/-! ## JSON serialization (json-stringify-safe on acyclic values) -/

/-- Hexadecimal digit for control-character escapes. -/
def hexDigit (n : Nat) : Char :=
  if n < 10 then Char.ofNat (48 + n) else Char.ofNat (87 + n)

/-- JSON string escaping as JSON.stringify performs it: quote, backslash,
the named control escapes, and \u00XX for other control characters. -/
def escapeChar (c : Char) : String :=
  if c = Char.ofNat 34 then "\\\""
  else if c = '\\' then "\\\\"
  else if c = Char.ofNat 10 then "\\n"
  else if c = Char.ofNat 13 then "\\r"
  else if c = Char.ofNat 9 then "\\t"
  else if c = Char.ofNat 8 then "\\b"
  else if c = Char.ofNat 12 then "\\f"
  else if c.toNat < 32 then
    String.mk ['\\', 'u', '0', '0', hexDigit (c.toNat / 16), hexDigit (c.toNat % 16)]
  else String.mk [c]

/-- Escape every character of a string for JSON output. -/
def escapeString (s : String) : String :=
  String.join (s.data.map escapeChar)

mutual

/-- JSON.stringify of a JSON value (no indentation, as the source calls
stringify with a single argument). -/
def jsonStringify : Json → String
  | .null => "null"
  | .bool true => "true"
  | .bool false => "false"
  | .num n => toString n
  | .str s => "\"" ++ escapeString s ++ "\""
  | .arr xs => "[" ++ jsonStringifyArr xs ++ "]"
  | .obj fs => "\x7b" ++ jsonStringifyFields fs ++ "\x7d"
termination_by j => sizeOf j

/-- Comma-separated serialization of array elements. -/
def jsonStringifyArr : List Json → String
  | [] => ""
  | [x] => jsonStringify x
  | x :: y :: xs => jsonStringify x ++ "," ++ jsonStringifyArr (y :: xs)
termination_by xs => sizeOf xs

/-- Comma-separated serialization of object fields. -/
def jsonStringifyFields : List (String × Json) → String
  | [] => ""
  | [(k, v)] => "\"" ++ escapeString k ++ "\":" ++ jsonStringify v
  | (k, v) :: f :: fs => "\"" ++ escapeString k ++ "\":" ++ jsonStringify v ++ "," ++ jsonStringifyFields (f :: fs)
termination_by fs => sizeOf fs

end

/-! ## Application requests (KubeApplication, KubeDelete of k8.ts) -/

/-- Information needed to construct the resources of an application
(interface KubeApplication of k8.ts).  Optional fields are undefined when
absent. -/
structure KubeApplication where
  teamId : String
  env : String
  name : String
  ns : String
  image : String
  imagePullSecret : Option String
  port : Option Nat
  path : Option String
  host : Option String
  protocol : Option String
  deploymentSpec : Option String
  serviceSpec : Option String
deriving DecidableEq

/-- Information needed to delete an application (type KubeDelete of k8.ts:
the name, ns, path and host fields of KubeApplication). -/
structure KubeDelete where
  name : String
  ns : String
  path : Option String
  host : Option String
deriving DecidableEq

/-- Interpolation of a possibly undefined string into a template literal:
JavaScript renders undefined as the text undefined. -/
def optShow : Option String → String
  | some s => s
  | none => "undefined"

/-- The creator label value (const creator of k8.ts). -/
def creator : String := "atomist.k8-automation"

/-- Scheme and authority of the Atomist webhook URL (webhookBaseUrl of
k8.ts).  The ATOMIST_WEBHOOK_BASEURL environment variable is external
input, passed here as an argument; the JavaScript or-else makes the empty
string fall back to the default. -/
def webhookBaseUrl (envVar : Option String) : String :=
  if strTruthy envVar then envVar.getD "" else "https://webhook.atomist.com"

/-- Namespace resource template (namespaceTemplate of k8.ts). -/
def namespaceTemplate (req : KubeApplication) : Json :=
  .obj [
    ("apiVersion", .str "v1"),
    ("kind", .str "Namespace"),
    ("metadata", .obj [("name", .str req.ns)])]

/-- The readiness and liveness probe built by deploymentTemplate when the
port is set (const probe of k8.ts). -/
def deploymentProbe : Json :=
  .obj [
    ("httpGet", .obj [
      ("path", .str "/"),
      ("port", .str "http"),
      ("scheme", .str "HTTP")]),
    ("initialDelaySeconds", .num 30),
    ("timeoutSeconds", .num 3),
    ("periodSeconds", .num 10),
    ("successThreshold", .num 1),
    ("failureThreshold", .num 3)]

/-- The container of the default deployment pod template.  When the port is
falsy the source leaves ports, readinessProbe and livenessProbe undefined,
which JSON-wise means the keys are absent (they are never observed: the
overlay merge replaces the containers array wholesale, never element-wise). -/
def deploymentContainer (req : KubeApplication) : Json :=
  .obj ([
    ("name", .str req.name),
    ("image", .str req.image),
    ("imagePullPolicy", .str "IfNotPresent"),
    ("env", .arr [
      .obj [("name", .str "ATOMIST_TEAMS"), ("value", .str req.teamId)],
      .obj [("name", .str "ATOMIST_ENVIRONMENT"), ("value", .str req.env)]]),
    ("resources", .obj [
      ("limits", .obj [("cpu", .str "300m"), ("memory", .str "384Mi")]),
      ("requests", .obj [("cpu", .str "100m"), ("memory", .str "320Mi")])])] ++
    (if natTruthy req.port then [
      ("readinessProbe", deploymentProbe),
      ("livenessProbe", deploymentProbe),
      ("ports", .arr [.obj [
        ("name", .str "http"),
        ("containerPort", .num (req.port.getD 0 : Nat)),
        ("protocol", .str "TCP")]])]
     else []))

/-- The default deployment resource built by deploymentTemplate of k8.ts
before the overlay merge.  whEnv is the ATOMIST_WEBHOOK_BASEURL environment
variable consumed by webhookBaseUrl. -/
def defaultDeployment (whEnv : Option String) (req : KubeApplication) : Json :=
  let k8ventAnnot := jsonStringify (.obj [
    ("environment", .str req.env),
    ("webhooks", .arr [.str (webhookBaseUrl whEnv ++ "/atomist/kube/teams/" ++ req.teamId)])])
  let labels : Json := .obj [
    ("app", .str req.name),
    ("teamId", .str req.teamId),
    ("env", .str req.env),
    ("creator", .str creator)]
  .obj [
    ("apiVersion", .str "extensions/v1beta1"),
    ("kind", .str "Deployment"),
    ("metadata", .obj [
      ("name", .str req.name),
      ("labels", labels)]),
    ("spec", .obj [
      ("replicas", .num 1),
      ("revisionHistoryLimit", .num 3),
      ("selector", .obj [
        ("matchLabels", .obj [
          ("app", .str req.name),
          ("teamId", .str req.teamId)])]),
      ("template", .obj [
        ("metadata", .obj [
          ("name", .str req.name),
          ("labels", labels),
          ("annotations", .obj [("atomist.com/k8vent", .str k8ventAnnot)])]),
        ("spec", .obj [
          ("containers", .arr [deploymentContainer req]),
          ("dnsPolicy", .str "ClusterFirst"),
          ("restartPolicy", .str "Always"),
          ("imagePullSecrets", .arr (
            if strTruthy req.imagePullSecret then
              [.obj [("name", .str (req.imagePullSecret.getD ""))]]
            else []))])]),
      ("strategy", .obj [
        ("type", .str "RollingUpdate"),
        ("rollingUpdate", .obj [
          ("maxUnavailable", .num 0),
          ("maxSurge", .num 1)])])])]

/-- deploymentTemplate of k8.ts: the default deployment, overlaid with the
parsed deploymentSpec when one is provided.  JSON.parse is a JavaScript
runtime primitive, modelled abstractly by the parse argument (none models a
thrown SyntaxError).  The merge case outside the JSON domain (see
mergeValue) is surfaced as an error; no claim depends on it. -/
def deploymentTemplate (parse : String → Option Json) (whEnv : Option String)
    (req : KubeApplication) : Except String Json :=
  let d := defaultDeployment whEnv req
  if strTruthy req.deploymentSpec then
    match parse (req.deploymentSpec.getD "") with
    | none => .error "Failed to parse provided deployment spec as JSON"
    | some ov =>
      match mergeWithSmart d ov with
      | some m => .ok m
      | none => .error "deployment spec merge left the JSON domain"
  else .ok d

/-- The default service resource built by serviceTemplate of k8.ts before
the overlay merge.  The source writes port: req.port unconditionally; the
only caller guards on a truthy port, so the undefined-port case is
modelled with 0. -/
def defaultService (req : KubeApplication) : Json :=
  .obj [
    ("kind", .str "Service"),
    ("apiVersion", .str "v1"),
    ("metadata", .obj [
      ("name", .str req.name),
      ("labels", .obj [
        ("app", .str req.name),
        ("teamId", .str req.teamId),
        ("env", .str req.env),
        ("creator", .str creator)])]),
    ("spec", .obj [
      ("ports", .arr [.obj [
        ("name", .str "http"),
        ("protocol", .str "TCP"),
        ("port", .num (req.port.getD 0 : Nat)),
        ("targetPort", .str "http")]]),
      ("selector", .obj [
        ("app", .str req.name),
        ("teamId", .str req.teamId)]),
      ("sessionAffinity", .str "None"),
      ("type", .str "NodePort")])]

/-- serviceTemplate of k8.ts: the default service, overlaid with the parsed
serviceSpec when one is provided. -/
def serviceTemplate (parse : String → Option Json) (req : KubeApplication) : Except String Json :=
  let s := defaultService req
  if strTruthy req.serviceSpec then
    match parse (req.serviceSpec.getD "") with
    | none => .error "Failed to parse provided service spec as JSON"
    | some ov =>
      match mergeWithSmart s ov with
      | some m => .ok m
      | none => .error "service spec merge left the JSON domain"
  else .ok s

/-! ## Ingress resource model and rule algebra (k8.ts)

The ingress is modelled with the typed interfaces of k8.ts.  Fields of the
source interfaces never read or written by the engine (tls, the default
backend, status, most metadata) are omitted. -/

/-- servicePort is string or number in the source interface. -/
inductive StrOrNum where
  | str (s : String)
  | num (n : Nat)
deriving DecidableEq

/-- IngressBackend of k8.ts. -/
structure IngressBackend where
  serviceName : String
  servicePort : StrOrNum
deriving DecidableEq

/-- HTTPIngressPath of k8.ts (path is optional in the interface). -/
structure HTTPIngressPath where
  path : Option String
  backend : IngressBackend
deriving DecidableEq

/-- HTTPIngressRuleValue of k8.ts. -/
structure HTTPIngressRuleValue where
  paths : List HTTPIngressPath
deriving DecidableEq

/-- IngressRule of k8.ts. -/
structure IngressRule where
  host : Option String
  http : Option HTTPIngressRuleValue
deriving DecidableEq

/-- IngressSpec of k8.ts (restricted to the rules field that the engine
uses). -/
structure IngressSpec where
  rules : Option (List IngressRule)
deriving DecidableEq

/-- The metadata fields of an ingress that ingressTemplate populates. -/
structure IngressMeta where
  name : String
  annotations : List (String × String)
  labels : List (String × String)
deriving DecidableEq

/-- Ingress of k8.ts. -/
structure Ingress where
  metadata : Option IngressMeta
  spec : Option IngressSpec
deriving DecidableEq

/-- Name of the shared ingress resource (const ingressName of k8.ts). -/
def ingressName : String := "atm-ingress"

/-- httpIngressPath of k8.ts: the path entry registered for an application. -/
def httpIngressPath (req : KubeApplication) : HTTPIngressPath :=
  { path := req.path
    backend := { serviceName := req.name, servicePort := .str "http" } }

/-- ingressTemplate of k8.ts: the ingress created when none exists yet.  The
source sets rule.host only when req.host is truthy. -/
def ingressTemplate (req : KubeApplication) : Ingress :=
  let rule : IngressRule :=
    { host := if strTruthy req.host then req.host else none
      http := some { paths := [httpIngressPath req] } }
  { metadata := some
      { name := ingressName
        annotations := [
          ("kubernetes.io/ingress.class", "nginx"),
          ("nginx.ingress.kubernetes.io/rewrite-target", "/")]
        labels := [
          ("ingress", "nginx"),
          ("teamId", req.teamId),
          ("env", req.env),
          ("creator", creator)] }
    spec := some { rules := some [rule] } }

/-- The rule-locating predicate of ingressPatch and ingressRemove: with a
truthy request host, findIndex compares r.host to it with strict equality;
otherwise the rule without a truthy host is located. -/
def hostPred (reqHost : Option String) (r : IngressRule) : Bool :=
  if strTruthy reqHost then r.host == reqHost else !(strTruthy r.host)

/-- The guarded path list of a rule in ingressPatch: rule.http.paths when
http is present, else a fresh empty array. -/
def pathsOfRule (r : IngressRule) : List HTTPIngressPath :=
  match r.http with
  | some hv => hv.paths
  | none => []

/-- The guarded rule list of an ingress in ingressPatch: ing.spec.rules when
present, else a fresh empty array. -/
def ingRules (ing : Ingress) : List IngressRule :=
  match ing.spec with
  | some sp => sp.rules.getD []
  | none => []

/-- The conflict message thrown by ingressPatch when the path entry is
owned by another backend. -/
def patchConflictMsg (req : KubeApplication) (other : String) : String :=
  "Cannot use path " ++ optShow req.path ++ " for service " ++
    req.ns ++ "/" ++ req.name ++ ", it is already in use by " ++ other

/-- Core of ingressPatch of k8.ts, as recursion over the rule list: the
first rule matching the host is processed in place (conflict on a foreign
backend, no-op on the same backend, else the new path entry is appended to
its paths), and if no rule matches a new rule is appended at the end.
Returns Except.error for the thrown conflict, ok none for the undefined
no-change return, and ok (some rules) for the rules of the returned patch.
The source writes rule.http.paths when the located rule lacks a matching
path entry; if rule.http were undefined that write would throw a TypeError,
modelled by the corresponding error branch. -/
def ingressPatchRules (req : KubeApplication) (httpPath : HTTPIngressPath) :
    List IngressRule → Except String (Option (List IngressRule))
  | [] =>
    .ok (some [{ host := if strTruthy req.host then req.host else none
                 http := some { paths := [httpPath] } }])
  | r :: rest =>
    if hostPred req.host r then
      match (pathsOfRule r).find? (fun p => p.path == req.path) with
      | some ep =>
        if ep.backend.serviceName == req.name then .ok none
        else .error (patchConflictMsg req ep.backend.serviceName)
      | none =>
        match r.http with
        | none => .error "TypeError: Cannot set properties of undefined"
        | some hv =>
          .ok (some ({ r with http := some { paths := hv.paths ++ [httpPath] } } :: rest))
    else
      (ingressPatchRules req httpPath rest).map (fun o => o.map (fun rs => r :: rs))

/-- The ingress value after ingressPatch returns: the source mutates the
rules array in place, which is the array of the ingress when
ing.spec.rules exists; when the guard in ingressPatch substituted a fresh
empty array, the ingress itself is untouched. -/
def ingAfterPatch (ing : Ingress) (newRules : List IngressRule) : Ingress :=
  match ing.spec with
  | some sp =>
    match sp.rules with
    | some _ => { ing with spec := some { sp with rules := some newRules } }
    | none => ing
  | none => ing

/-- ingressPatch of k8.ts, paired with the value of its ingress argument
after the call (the source mutates it through the shared rules array).  The
result is the thrown error, or undefined (ok none), or the patch rules. -/
def ingressPatch (ing : Ingress) (req : KubeApplication) :
    Except String (Option (List IngressRule)) × Ingress :=
  match ingressPatchRules req (httpIngressPath req) (ingRules ing) with
  | .error e => (.error e, ing)
  | .ok none => (.ok none, ing)
  | .ok (some newRules) => (.ok (some newRules), ingAfterPatch ing newRules)

/-- The conflict message thrown by ingressRemove when the path entry is
owned by another backend. -/
def removeConflictMsg (req : KubeDelete) (other : String) : String :=
  "Will not remove path " ++ optShow req.path ++ " for service " ++
    req.ns ++ "/" ++ req.name ++ ", it is associated with service " ++ other

/-- Removal of the path entry from a path list in ingressRemove: locate the
first entry with the request's path; refuse (throw) when its backend is
owned by another service; else splice it out.  ok none models pathIndex
being negative. -/
def removePathAux (req : KubeDelete) : List HTTPIngressPath → Except String (Option (List HTTPIngressPath))
  | [] => .ok none
  | p :: ps =>
    if p.path == req.path then
      if p.backend.serviceName == req.name then .ok (some ps)
      else .error (removeConflictMsg req p.backend.serviceName)
    else (removePathAux req ps).map (fun o => o.map (fun qs => p :: qs))

/-- Core of ingressRemove of k8.ts over the rule list: locate the first
rule matching the host (ok none when absent), read rule.http.paths (the
source does not guard http here, so an undefined http throws a TypeError),
remove the path entry, and drop the rule when its path list becomes empty. -/
def ingressRemoveRules (req : KubeDelete) : List IngressRule → Except String (Option (List IngressRule))
  | [] => .ok none
  | r :: rest =>
    if hostPred req.host r then
      match r.http with
      | none => .error "TypeError: Cannot read properties of undefined"
      | some hv =>
        match removePathAux req hv.paths with
        | .error e => .error e
        | .ok none => .ok none
        | .ok (some newPaths) =>
          if newPaths.isEmpty then .ok (some rest)
          else .ok (some ({ r with http := some { paths := newPaths } } :: rest))
    else (ingressRemoveRules req rest).map (fun o => o.map (fun rs => r :: rs))

/-- Result of ingressRemove: undefined (noChange), the empty patch object
signalling that the last rule was removed (deleteAll), or a patch carrying
the remaining rules. -/
inductive RemoveResult where
  | noChange
  | deleteAll
  | patch (rules : List IngressRule)
deriving DecidableEq

/-- ingressRemove of k8.ts, paired with the value of its ingress argument
after the call.  The initial guard returns undefined when the ingress has
no spec, no rules array, or an empty rules array.  On the conflict throw
the ingress is unchanged, since the throw happens before the splice; on a
successful removal the in-place splice leaves the spliced rules inside the
ingress. -/
def ingressRemove (ing : Ingress) (req : KubeDelete) : Except String RemoveResult × Ingress :=
  match ing.spec with
  | none => (.ok .noChange, ing)
  | some sp =>
    match sp.rules with
    | none => (.ok .noChange, ing)
    | some rules =>
      if rules.isEmpty then (.ok .noChange, ing)
      else
        match ingressRemoveRules req rules with
        | .error e => (.error e, ing)
        | .ok none => (.ok .noChange, ing)
        | .ok (some newRules) =>
          let ing' : Ingress := { ing with spec := some { sp with rules := some newRules } }
          if newRules.isEmpty then (.ok .deleteAll, ing')
          else (.ok (.patch newRules), ing')

/-! ## Error helpers (src/src/error.ts) and the retry wrapper (k8.ts) -/

/-- preErrMsg of error.ts: prepend a description to an error message. -/
def preErrMsg (e : String) (pre : String) : String :=
  pre ++ ": " ++ e

/-- Options of the promise-retry package (value object of k8.ts). -/
structure RetryOptions where
  retries : Nat
  factor : Nat
  minTimeout : Nat
  maxTimeout : Nat
  randomize : Bool
deriving DecidableEq

/-- defaultRetryOptions of k8.ts.  The source writes minTimeout as
0.1 * 1000, which evaluates to exactly 100 in IEEE double arithmetic. -/
def defaultRetryOptions : RetryOptions :=
  { retries := 5, factor := 2, minTimeout := 100, maxTimeout := 3000, randomize := true }

/-- The attempt loop of promise-retry: op is the outcome of each numbered
attempt (the source re-invokes the same thunk; attempts are modelled as an
oracle indexed by the attempt count, which starts at 1).  With r retries
remaining, a failed attempt is retried; the final attempt's outcome is
returned as is.  Back-off delays only affect timing, not the result, and
are not modelled. -/
def retryLoop (op : Nat → Except String α) : Nat → Nat → Except String α
  | n, 0 => op n
  | n, r + 1 =>
    match op n with
    | .ok a => .ok a
    | .error _ => retryLoop op (n + 1) r

/-- promiseRetry: run the first attempt and up to opts.retries retries. -/
def promiseRetry (opts : RetryOptions) (op : Nat → Except String α) : Except String α :=
  retryLoop op 1 opts.retries

/-- retryP of k8.ts.  The source takes an options parameter defaulting to
defaultRetryOptions but passes the constant defaultRetryOptions to
promiseRetry regardless, so the options argument is dead; on exhaustion the
last error is wrapped with the Failed-to description via preErrMsg. -/
def retryP (k : Nat → Except String α) (desc : String) (options : RetryOptions) :
    Except String α :=
  match promiseRetry defaultRetryOptions k with
  | .ok a => .ok a
  | .error e => .error (preErrMsg e ("Failed to " ++ desc))

/-! ## The reconcile engine against an abstract cluster

The Kubernetes client is an external collaborator.  Each remote call the
engine makes is modelled by a static oracle: existence reads either succeed
(for the ingress read, returning the ingress value) or fail, and each
retried mutation either eventually succeeds or exhausts its retries.  A
failed mutation surfaces as the Failed-to message retryP produces; the
unknown underlying cluster error text is not modelled.  The engine returns
its result together with the ordered trace of mutating API calls it
attempted (reads are not mutations and are not traced). -/

/-- Outcomes of the remote calls of one engine invocation. -/
structure ClusterEnv where
  nsGetOk : Bool
  svcGetOk : Bool
  depGetOk : Bool
  ingGet : Option Ingress
  nsPostOk : Bool
  svcPostOk : Bool
  depPostOk : Bool
  depPatchOk : Bool
  ingPostOk : Bool
  ingPatchOk : Bool
  ingDeleteOk : Bool
  svcDeleteOk : Bool
  depDeleteOk : Bool
deriving DecidableEq

/-- Body of an ingress patch call: the empty patch object, or a patch
carrying a rules list. -/
inductive IngressPatchBody where
  | empty
  | rules (rs : List IngressRule)
deriving DecidableEq

/-- A mutating Kubernetes API call attempted by the engine. -/
inductive KubeAction where
  | createNamespace (body : Json)
  | createService (body : Json)
  | createDeployment (body : Json)
  | patchDeployment (body : Json)
  | createIngress (body : Ingress)
  | patchIngress (body : IngressPatchBody)
  | deleteIngressRes
  | deleteServiceRes
  | deleteDeploymentRes

/-- Result of a mutation executed through retryP: ok, or the exhaustion
error carrying the Failed-to description. -/
def retryOutcome (ok : Bool) (desc : String) : Except String Unit :=
  if ok then .ok () else .error ("Failed to " ++ desc)

/-- upsertNamespace of k8.ts: if the namespace read succeeds nothing is
done; otherwise the namespace is created from its template via retryP. -/
def upsertNamespace (env : ClusterEnv) (req : KubeApplication) :
    Except String Unit × List KubeAction :=
  if env.nsGetOk then (.ok (), [])
  else
    (retryOutcome env.nsPostOk ("Create namespace " ++ req.ns),
     [.createNamespace (namespaceTemplate req)])

/-- upsertService of k8.ts: skipped entirely when the port is falsy; when
the read fails, the template is built (a throw from serviceTemplate is
caught and rejected before any call) and posted via retryP. -/
def upsertService (env : ClusterEnv) (parse : String → Option Json)
    (req : KubeApplication) : Except String Unit × List KubeAction :=
  if !natTruthy req.port then (.ok (), [])
  else if env.svcGetOk then (.ok (), [])
  else
    match serviceTemplate parse req with
    | .error e => (.error e, [])
    | .ok svc =>
      (retryOutcome env.svcPostOk ("create service " ++ req.ns ++ "/" ++ req.name),
       [.createService svc])

/-- The deployment patch body of upsertDeployment of k8.ts when the read
succeeds: only the container name and the new image. -/
def imagePatch (req : KubeApplication) : Json :=
  .obj [("spec", .obj [
    ("template", .obj [
      ("spec", .obj [
        ("containers", .arr [.obj [
          ("name", .str req.name),
          ("image", .str req.image)]])])])])]

/-- upsertDeployment of k8.ts: when the read succeeds, patch only the
container image; when it fails, build the full template (a throw from
deploymentTemplate is caught and rejected before any call) and post it. -/
def upsertDeployment (env : ClusterEnv) (parse : String → Option Json)
    (whEnv : Option String) (req : KubeApplication) :
    Except String Unit × List KubeAction :=
  if env.depGetOk then
    (retryOutcome env.depPatchOk ("patch deployment " ++ req.ns ++ "/" ++ req.name),
     [.patchDeployment (imagePatch req)])
  else
    match deploymentTemplate parse whEnv req with
    | .error e => (.error e, [])
    | .ok dep =>
      (retryOutcome env.depPostOk ("create deployment " ++ req.ns ++ "/" ++ req.name),
       [.createDeployment dep])

/-- upsertIngress of k8.ts: skipped when the path is falsy; when the read
succeeds the ingressPatch algebra decides between a thrown conflict, no
change, and a patch; when the read fails the ingress template is posted. -/
def upsertIngress (env : ClusterEnv) (req : KubeApplication) :
    Except String Unit × List KubeAction :=
  if !strTruthy req.path then (.ok (), [])
  else
    match env.ingGet with
    | some ing =>
      match (ingressPatch ing req).1 with
      | .error e => (.error e, [])
      | .ok none => (.ok (), [])
      | .ok (some rules) =>
        (retryOutcome env.ingPatchOk
          ("patch ingress " ++ req.ns ++ "/" ++ ingressName ++ " for " ++ req.ns ++ "/" ++ req.name),
         [.patchIngress (.rules rules)])
    | none =>
      (retryOutcome env.ingPostOk
        ("create ingress " ++ req.ns ++ "/" ++ ingressName ++ " for " ++ req.ns ++ "/" ++ req.name),
       [.createIngress (ingressTemplate req)])

/-- upsertApplication of k8.ts: the sequential pipeline namespace, then
service, then deployment, then ingress; the first failure aborts the rest
and is wrapped by the upserting-failed catch (the source interpolates the
stringified request into that prefix; the prefix is modelled without it). -/
def upsertApplication (env : ClusterEnv) (parse : String → Option Json)
    (whEnv : Option String) (req : KubeApplication) :
    Except String Unit × List KubeAction :=
  let (r1, t1) := upsertNamespace env req
  match r1 with
  | .error e => (.error (preErrMsg e "upserting failed"), t1)
  | .ok _ =>
    let (r2, t2) := upsertService env parse req
    match r2 with
    | .error e => (.error (preErrMsg e "upserting failed"), t1 ++ t2)
    | .ok _ =>
      let (r3, t3) := upsertDeployment env parse whEnv req
      match r3 with
      | .error e => (.error (preErrMsg e "upserting failed"), t1 ++ t2 ++ t3)
      | .ok _ =>
        let (r4, t4) := upsertIngress env req
        match r4 with
        | .error e => (.error (preErrMsg e "upserting failed"), t1 ++ t2 ++ t3 ++ t4)
        | .ok _ => (.ok (), t1 ++ t2 ++ t3 ++ t4)

/-- deleteService of k8.ts: a failed existence read is logged and treated
as success; otherwise the service is deleted via retryP. -/
def deleteService (env : ClusterEnv) (req : KubeDelete) :
    Except String Unit × List KubeAction :=
  if env.svcGetOk then
    (retryOutcome env.svcDeleteOk ("delete service " ++ req.ns ++ "/" ++ req.name),
     [.deleteServiceRes])
  else (.ok (), [])

/-- deleteDeployment of k8.ts: a failed existence read is logged and
treated as success; otherwise the deployment is deleted via retryP. -/
def deleteDeployment (env : ClusterEnv) (req : KubeDelete) :
    Except String Unit × List KubeAction :=
  if env.depGetOk then
    (retryOutcome env.depDeleteOk ("delete deployment " ++ req.ns ++ "/" ++ req.name),
     [.deleteDeploymentRes])
  else (.ok (), [])

/-- deleteIngress of k8.ts.  Without a path nothing is done; a failed read
resolves as absent.  On a removal result the source compares the patch to a
fresh empty object literal with strict equality; strict equality on two
distinct objects is reference equality and therefore always false, so the
delete branch is unreachable and the deleteAll sentinel falls through to
the patch call, whose body is then the empty object. -/
def deleteIngress (env : ClusterEnv) (req : KubeDelete) :
    Except String Unit × List KubeAction :=
  if !strTruthy req.path then (.ok (), [])
  else
    match env.ingGet with
    | none => (.ok (), [])
    | some ing =>
      match (ingressRemove ing req).1 with
      | .error e => (.error e, [])
      | .ok .noChange => (.ok (), [])
      | .ok .deleteAll =>
        (retryOutcome env.ingPatchOk "remove path from ingress", [.patchIngress .empty])
      | .ok (.patch rs) =>
        (retryOutcome env.ingPatchOk "remove path from ingress", [.patchIngress (.rules rs)])

/-- deleteApplication of k8.ts: each of the three removals runs in turn
with its own catch pushing a prefixed message onto the error list, so a
failure never prevents the later removals; the call succeeds exactly when
the list stays empty, and otherwise rejects with the aggregate message
joining every collected failure (the source also interpolates the
stringified request; modelled without it). -/
def deleteApplication (env : ClusterEnv) (req : KubeDelete) :
    Except String Unit × List KubeAction :=
  let (r1, t1) := deleteIngress env req
  let (r2, t2) := deleteService env req
  let (r3, t3) := deleteDeployment env req
  let slugStr := req.ns ++ "/" ++ req.name
  let errs :=
    (match r1 with
     | .error e => [preErrMsg e ("failed to remove rule for " ++ slugStr ++ " from ingress")]
     | .ok _ => []) ++
    (match r2 with
     | .error e => [preErrMsg e ("failed to delete service " ++ slugStr)]
     | .ok _ => []) ++
    (match r3 with
     | .error e => [preErrMsg e ("failed to delete deployment " ++ slugStr)]
     | .ok _ => [])
  (if errs.isEmpty then .ok ()
   else .error ("Failed to delete application: " ++ String.intercalate "; " errs),
   t1 ++ t2 ++ t3)

/-! ## Derived notions used by the theorems -/

/-- The ingress as re-read after the cluster applies a patch whose body
carries the given rules: a strategic-merge patch of spec.rules replaces the
rules array. -/
def setIngRules (ing : Ingress) (rs : List IngressRule) : Ingress :=
  { ing with spec := some { rules := some rs } }

/-- Number of path entries registered for the request's tuple inside the
rule that the algebra locates for the request's host: entries whose path
and backend service name both match. -/
def countTupleRules (rs : List IngressRule) (req : KubeApplication) : Nat :=
  match rs.find? (hostPred req.host) with
  | none => 0
  | some r =>
    ((pathsOfRule r).filter
      (fun p => p.path == req.path && p.backend.serviceName == req.name)).length

/-- Pipeline position of the resource kind an action mutates: namespace 0,
service 1, deployment 2, ingress 3. -/
def actionRank : KubeAction → Nat
  | .createNamespace _ => 0
  | .createService _ => 1
  | .createDeployment _ => 2
  | .patchDeployment _ => 2
  | .createIngress _ => 3
  | .patchIngress _ => 3
  | .deleteIngressRes => 3
  | .deleteServiceRes => 1
  | .deleteDeploymentRes => 2

/-! ## Lemmas on the ingress rule algebra -/

/-- A conflict located by find? makes ingressPatchRules throw the conflict
error. -/
theorem ingressPatchRules_conflict (req : KubeApplication) (hp : HTTPIngressPath)
    (rules : List IngressRule) (r : IngressRule) (ep : HTTPIngressPath)
    (hfind : rules.find? (hostPred req.host) = some r)
    (hpath : (pathsOfRule r).find? (fun p => p.path == req.path) = some ep)
    (hne : ep.backend.serviceName ≠ req.name) :
    ingressPatchRules req hp rules = .error (patchConflictMsg req ep.backend.serviceName) := by
  have hb : (ep.backend.serviceName == req.name) = false := beq_eq_false_iff_ne.mpr hne
  induction rules with
  | nil => simp [List.find?] at hfind
  | cons r₀ rest ih =>
    cases h : hostPred req.host r₀ with
    | true =>
      simp only [List.find?, h] at hfind
      injection hfind with hr
      subst hr
      simp [ingressPatchRules, h, hpath, hb]
    | false =>
      simp only [List.find?, h] at hfind
      simp [ingressPatchRules, h, ih hfind]
      rfl

/-- An entry already owned by the requesting service makes ingressPatchRules
return the undefined no-change result. -/
theorem ingressPatchRules_noop (req : KubeApplication) (hp : HTTPIngressPath)
    (rules : List IngressRule) (r : IngressRule) (ep : HTTPIngressPath)
    (hfind : rules.find? (hostPred req.host) = some r)
    (hpath : (pathsOfRule r).find? (fun p => p.path == req.path) = some ep)
    (heq : ep.backend.serviceName = req.name) :
    ingressPatchRules req hp rules = .ok none := by
  have hb : (ep.backend.serviceName == req.name) = true := beq_iff_eq.mpr heq
  induction rules with
  | nil => simp [List.find?] at hfind
  | cons r₀ rest ih =>
    cases h : hostPred req.host r₀ with
    | true =>
      simp only [List.find?, h] at hfind
      injection hfind with hr
      subst hr
      simp [ingressPatchRules, h, hpath, hb]
    | false =>
      simp only [List.find?, h] at hfind
      simp [ingressPatchRules, h, ih hfind]
      rfl

/-- A conflict located in the path list makes removePathAux throw the
conflict error. -/
theorem removePathAux_conflict (req : KubeDelete)
    (paths : List HTTPIngressPath) (ep : HTTPIngressPath)
    (hpath : paths.find? (fun p => p.path == req.path) = some ep)
    (hne : ep.backend.serviceName ≠ req.name) :
    removePathAux req paths = .error (removeConflictMsg req ep.backend.serviceName) := by
  have hb : (ep.backend.serviceName == req.name) = false := beq_eq_false_iff_ne.mpr hne
  induction paths with
  | nil => simp [List.find?] at hpath
  | cons p ps ih =>
    cases h : (p.path == req.path) with
    | true =>
      simp only [List.find?, h] at hpath
      injection hpath with hpeq
      subst hpeq
      simp [removePathAux, h, hb]
    | false =>
      simp only [List.find?, h] at hpath
      simp [removePathAux, h, ih hpath]
      rfl

/-- A conflict located by find? makes ingressRemoveRules throw the conflict
error. -/
theorem ingressRemoveRules_conflict (req : KubeDelete)
    (rules : List IngressRule) (r : IngressRule) (hv : HTTPIngressRuleValue)
    (ep : HTTPIngressPath)
    (hfind : rules.find? (hostPred req.host) = some r)
    (hhttp : r.http = some hv)
    (hpath : hv.paths.find? (fun p => p.path == req.path) = some ep)
    (hne : ep.backend.serviceName ≠ req.name) :
    ingressRemoveRules req rules = .error (removeConflictMsg req ep.backend.serviceName) := by
  induction rules with
  | nil => simp [List.find?] at hfind
  | cons r₀ rest ih =>
    cases h : hostPred req.host r₀ with
    | true =>
      simp only [List.find?, h] at hfind
      injection hfind with hr
      subst hr
      simp [ingressRemoveRules, h, hhttp, removePathAux_conflict req hv.paths ep hpath hne]
    | false =>
      simp only [List.find?, h] at hfind
      simp [ingressRemoveRules, h, ih hfind]
      rfl

/-! ## Claim C1: conflict atomicity of the ingress rule algebra -/

/-- C1: for every ingress whose rule matching the request's host (absence
of host being its own key) contains a path entry with the request's path
but a backend service name different from the requesting application's,
both ingressPatch (insert) and ingressRemove (remove) throw a conflict
error and leave the ingress value unchanged: no path entry is added,
overwritten, or removed. -/
theorem c1_conflict_atomicity :
    (∀ (ing : Ingress) (req : KubeApplication) (r : IngressRule) (ep : HTTPIngressPath),
      (ingRules ing).find? (hostPred req.host) = some r →
      (pathsOfRule r).find? (fun p => p.path == req.path) = some ep →
      ep.backend.serviceName ≠ req.name →
      ingressPatch ing req = (.error (patchConflictMsg req ep.backend.serviceName), ing)) ∧
    (∀ (ing : Ingress) (req : KubeDelete) (sp : IngressSpec) (rules : List IngressRule)
      (r : IngressRule) (hv : HTTPIngressRuleValue) (ep : HTTPIngressPath),
      ing.spec = some sp → sp.rules = some rules → rules ≠ [] →
      rules.find? (hostPred req.host) = some r →
      r.http = some hv →
      hv.paths.find? (fun p => p.path == req.path) = some ep →
      ep.backend.serviceName ≠ req.name →
      ingressRemove ing req = (.error (removeConflictMsg req ep.backend.serviceName), ing)) := by
  constructor
  · intro ing req r ep hfind hpath hne
    simp [ingressPatch,
      ingressPatchRules_conflict req (httpIngressPath req) (ingRules ing) r ep hfind hpath hne]
  · intro ing req sp rules r hv ep hspec hrules hnonempty hfind hhttp hpath hne
    have hempty : rules.isEmpty = false := by
      cases rules with
      | nil => exact absurd rfl hnonempty
      | cons _ _ => rfl
    simp [ingressRemove, hspec, hrules, hempty,
      ingressRemoveRules_conflict req rules r hv ep hfind hhttp hpath hne]

/-- Concrete backend owned by another application, for the C1 witness. -/
def conflictBackendA : IngressBackend :=
  { serviceName := "svc-a", servicePort := .str "http" }

/-- Concrete path entry owned by svc-a, for the C1 witness. -/
def conflictPathEntry : HTTPIngressPath :=
  { path := some "/p", backend := conflictBackendA }

/-- Concrete rule for host h, for the C1 witness. -/
def conflictRule : IngressRule :=
  { host := some "h", http := some { paths := [conflictPathEntry] } }

/-- Concrete shared ingress holding only the svc-a entry, for the C1
witness. -/
def conflictIngress : Ingress :=
  { metadata := none, spec := some { rules := some [conflictRule] } }

/-- Concrete insert request from the application svc-b for the same host
and path, for the C1 witness. -/
def conflictReq : KubeApplication :=
  { teamId := "t", env := "e", name := "svc-b", ns := "ns", image := "img"
    imagePullSecret := none, port := some 8080, path := some "/p", host := some "h"
    protocol := none, deploymentSpec := none, serviceSpec := none }

/-- Concrete delete request from the application svc-b, for the C1 witness. -/
def conflictDelReq : KubeDelete :=
  { name := "svc-b", ns := "ns", path := some "/p", host := some "h" }

/-- Witness for C1 at a concrete conflicting ingress: both operations throw
and return the ingress unchanged. -/
theorem c1_conflict_atomicity_witness :
    (ingRules conflictIngress).find? (hostPred conflictReq.host) = some conflictRule ∧
    (pathsOfRule conflictRule).find? (fun p => p.path == conflictReq.path) = some conflictPathEntry ∧
    conflictPathEntry.backend.serviceName ≠ conflictReq.name ∧
    ingressPatch conflictIngress conflictReq =
      (.error (patchConflictMsg conflictReq "svc-a"), conflictIngress) ∧
    ingressRemove conflictIngress conflictDelReq =
      (.error (removeConflictMsg conflictDelReq "svc-a"), conflictIngress) :=
  ⟨by decide, by decide, by decide,
   c1_conflict_atomicity.1 conflictIngress conflictReq conflictRule conflictPathEntry
     (by decide) (by decide) (by decide),
   c1_conflict_atomicity.2 conflictIngress conflictDelReq
     { rules := some [conflictRule] } [conflictRule] conflictRule
     { paths := [conflictPathEntry] } conflictPathEntry
     rfl rfl (by decide) (by decide) rfl (by decide) (by decide)⟩

/-! ## Claim C2: removal of the last path of the last rule -/

/-- Concrete last path entry, owned by the requesting service, for C2. -/
def lastPathEntry : HTTPIngressPath :=
  { path := some "/p", backend := { serviceName := "svc", servicePort := .str "http" } }

/-- Concrete last rule, for C2. -/
def lastRule : IngressRule :=
  { host := some "h", http := some { paths := [lastPathEntry] } }

/-- Concrete ingress with exactly one rule containing exactly one path, for
C2. -/
def lastRuleIngress : Ingress :=
  { metadata := none, spec := some { rules := some [lastRule] } }

/-- Concrete delete request owning that last path, for C2. -/
def lastRuleDelReq : KubeDelete :=
  { name := "svc", ns := "ns", path := some "/p", host := some "h" }

/-- Cluster oracle for C2: the ingress read returns the one-rule ingress
and every mutation succeeds. -/
def lastRuleEnv : ClusterEnv :=
  { nsGetOk := true, svcGetOk := true, depGetOk := true, ingGet := some lastRuleIngress
    nsPostOk := true, svcPostOk := true, depPostOk := true, depPatchOk := true
    ingPostOk := true, ingPatchOk := true, ingDeleteOk := true
    svcDeleteOk := true, depDeleteOk := true }

/-- C2 evaluated at the failing input: removing the only path of the only
rule does yield the distinguished delete-entire-resource sentinel (the
empty patch object), but deleteIngress then issues a patch whose body is
that empty object rather than a delete of the ingress resource, because
the source compares the sentinel to a fresh object literal with strict
(reference) equality, which is always false.  The claim's delete action
never appears in the trace. -/
theorem c2_delete_ingress_on_last_rule :
    ingressRemove lastRuleIngress lastRuleDelReq =
      (.ok .deleteAll, { lastRuleIngress with spec := some { rules := some [] } }) ∧
    deleteIngress lastRuleEnv lastRuleDelReq = (.ok (), [.patchIngress .empty]) :=
  ⟨rfl, rfl⟩

/-! ## Claim C9: name derivation -/

/-- C9 counterexample: on the three parts the claim lists, joining with the
separator token -0- yields atomist-playground-0-0-0-losgatos1, so the
derived name is not the claimed one (the claimed name arises from the two
identity parts with the separator supplying the middle 0). -/
theorem c9_name_derivation_counterexample :
    deriveName ["atomist-playground", "0", "losgatos1"] ≠ "ratomist-playground-0-losgatos19" := by
  decide

/-- C9 as amended: name derivation is a pure total function (it is a Lean
function), and on the two identity parts atomist-playground and losgatos1,
joined by the separator token -0-, it yields exactly
ratomist-playground-0-losgatos19. -/
theorem c9_name_derivation :
    deriveName ["atomist-playground", "losgatos1"] = "ratomist-playground-0-losgatos19" := by
  decide

/-! ## Claim C5: idempotence of the ingress insert -/

/-- find? over an append whose left part contains no match. -/
theorem find?_append_of_none (p : α → Bool) (l₁ l₂ : List α) (h : l₁.find? p = none) :
    (l₁ ++ l₂).find? p = l₂.find? p := by
  induction l₁ with
  | nil => rfl
  | cons a l₁ ih =>
    cases ha : p a with
    | true => simp [List.find?, ha] at h
    | false =>
      simp only [List.find?, ha] at h
      simpa only [List.cons_append, List.find?, ha] using ih h

/-- filter is empty when the predicate fails on every element. -/
theorem filter_eq_nil_of_false (p : α → Bool) (l : List α) (h : ∀ a ∈ l, p a = false) :
    l.filter p = [] := by
  induction l with
  | nil => rfl
  | cons a l ih =>
    simp only [List.filter, h a (List.mem_cons_self a l)]
    exact ih (fun b hb => h b (List.mem_cons_of_mem a hb))

/-- The rule appended by ingressPatch matches the locating predicate of its
own request host. -/
theorem hostPred_ifHost (h : Option String) (http : Option HTTPIngressRuleValue) :
    hostPred h { host := if strTruthy h then h else none, http := http } = true := by
  cases hh : strTruthy h with
  | true => simp [hostPred, hh]
  | false =>
    have hnone : (if strTruthy h then h else none : Option String) = none := by simp [hh]
    simp only [hostPred, hh, Bool.false_eq_true, if_false, hnone]
    rfl

/-- Inserting a tuple again right after a successful insert is a no-op, and
the patched rules carry exactly one entry for the tuple in the located
rule.  hp is the path entry built for the request (its path and backend
service name are the request's). -/
theorem ingressPatchRules_insert_twice (req : KubeApplication) (hp : HTTPIngressPath)
    (hpp : hp.path = req.path) (hpn : hp.backend.serviceName = req.name)
    (rules R : List IngressRule)
    (h : ingressPatchRules req hp rules = .ok (some R)) :
    ingressPatchRules req hp R = .ok none ∧ countTupleRules R req = 1 := by
  induction rules generalizing R with
  | nil =>
    simp only [ingressPatchRules, Except.ok.injEq, Option.some.injEq] at h
    subst h
    refine ⟨?_, ?_⟩
    · simp [ingressPatchRules, hostPred_ifHost, pathsOfRule, List.find?, hpp, hpn]
    · simp [countTupleRules, List.find?, hostPred_ifHost, pathsOfRule, List.filter, hpp, hpn]
  | cons r₀ rest ih =>
    cases hh : hostPred req.host r₀ with
    | true =>
      cases hfind : (pathsOfRule r₀).find? (fun p => p.path == req.path) with
      | some ep =>
        cases hb : ep.backend.serviceName == req.name with
        | true => simp [ingressPatchRules, hh, hfind, hb] at h
        | false => simp [ingressPatchRules, hh, hfind, hb] at h
      | none =>
        cases hhttp : r₀.http with
        | none => simp [ingressPatchRules, hh, hfind, hhttp] at h
        | some hv =>
          have hpaths : pathsOfRule r₀ = hv.paths := by simp [pathsOfRule, hhttp]
          simp only [ingressPatchRules, hh, if_true, hfind, hhttp,
            Except.ok.injEq, Option.some.injEq] at h
          subst h
          have hfind' : hv.paths.find? (fun p => p.path == req.path) = none := hpaths ▸ hfind
          have happ : (hv.paths ++ [hp]).find? (fun p => p.path == req.path) = some hp := by
            rw [find?_append_of_none _ _ _ hfind']
            simp [List.find?, hpp]
          have hpu : hostPred req.host
              ({ r₀ with http := some { paths := hv.paths ++ [hp] } }) = true := hh
          have hnil : hv.paths.filter
              (fun p => p.path == req.path && p.backend.serviceName == req.name) = [] :=
            filter_eq_nil_of_false _ _ (fun p hpmem => by
              have hf := List.find?_eq_none.mp hfind' p hpmem
              simp only [Bool.not_eq_true] at hf
              simp [hf])
          refine ⟨?_, ?_⟩
          · simp [ingressPatchRules, hpu, pathsOfRule, happ, hpn]
          · simp [countTupleRules, List.find?, hpu, pathsOfRule, List.filter_append, hnil,
              List.filter, hpp, hpn]
    | false =>
      cases hrec : ingressPatchRules req hp rest with
      | error e => simp [ingressPatchRules, hh, hrec, Except.map] at h
      | ok o =>
        cases o with
        | none => simp [ingressPatchRules, hh, hrec, Except.map, Option.map] at h
        | some R' =>
          have hR : R = r₀ :: R' := by
            simp only [ingressPatchRules, hh, Bool.false_eq_true, if_false, hrec,
              Except.map, Option.map, Except.ok.injEq, Option.some.injEq] at h
            exact h.symm
          subst hR
          obtain ⟨h2, hc⟩ := ih R' hrec
          refine ⟨?_, ?_⟩
          · simp [ingressPatchRules, hh, h2, Except.map, Option.map]
          · simpa only [countTupleRules, List.find?, hh] using hc

/-- C5: ingress insert is idempotent.  First part: when the rule located
for the request's host already contains a path entry with the request's
path and the same backend service name, ingressPatch returns the undefined
no-change result and the ingress is unchanged.  Second part: after a
successful insert producing patch rules R, inserting the same tuple into
the patched ingress is a no-op and R carries exactly one path entry for the
tuple in the located rule, never two. -/
theorem c5_insert_idempotent :
    (∀ (ing : Ingress) (req : KubeApplication) (r : IngressRule) (ep : HTTPIngressPath),
      (ingRules ing).find? (hostPred req.host) = some r →
      (pathsOfRule r).find? (fun p => p.path == req.path) = some ep →
      ep.backend.serviceName = req.name →
      ingressPatch ing req = (.ok none, ing)) ∧
    (∀ (ing : Ingress) (req : KubeApplication) (R : List IngressRule),
      (ingressPatch ing req).1 = .ok (some R) →
      ingressPatch (setIngRules ing R) req = (.ok none, setIngRules ing R) ∧
      countTupleRules R req = 1) := by
  constructor
  · intro ing req r ep hfind hpath heq
    simp [ingressPatch,
      ingressPatchRules_noop req (httpIngressPath req) (ingRules ing) r ep hfind hpath heq]
  · intro ing req R h
    have hR : ingressPatchRules req (httpIngressPath req) (ingRules ing) = .ok (some R) := by
      cases hm : ingressPatchRules req (httpIngressPath req) (ingRules ing) with
      | error e => simp [ingressPatch, hm] at h
      | ok o =>
        cases o with
        | none => simp [ingressPatch, hm] at h
        | some R₁ =>
          simp only [ingressPatch, hm] at h
          injection h with h1
          injection h1 with h2
          rw [h2]
    obtain ⟨h2, hc⟩ := ingressPatchRules_insert_twice req (httpIngressPath req) rfl rfl
      (ingRules ing) R hR
    refine ⟨?_, hc⟩
    have hset : ingRules (setIngRules ing R) = R := rfl
    simp [ingressPatch, hset, h2]

/-- Concrete path entry owned by the requesting service, for the C5
witness. -/
def idemEntry : HTTPIngressPath :=
  { path := some "/p", backend := { serviceName := "svc", servicePort := .str "http" } }

/-- Concrete rule holding the entry, for the C5 witness. -/
def idemRule : IngressRule :=
  { host := some "h", http := some { paths := [idemEntry] } }

/-- Concrete ingress already holding the tuple, for the C5 witness. -/
def idemIngress : Ingress :=
  { metadata := none, spec := some { rules := some [idemRule] } }

/-- Concrete ingress with an empty rules array, for the C5 witness. -/
def idemFresh : Ingress :=
  { metadata := none, spec := some { rules := some [] } }

/-- Concrete insert request of the tuple (host h, path /p, backend svc),
for the C5 witness. -/
def idemReq : KubeApplication :=
  { teamId := "t", env := "e", name := "svc", ns := "ns", image := "img"
    imagePullSecret := none, port := some 8080, path := some "/p", host := some "h"
    protocol := none, deploymentSpec := none, serviceSpec := none }

/-- Witness for C5: inserting an already-registered tuple is a no-op, and
a fresh insert followed by the same insert leaves exactly one entry. -/
theorem c5_insert_idempotent_witness :
    (ingRules idemIngress).find? (hostPred idemReq.host) = some idemRule ∧
    (pathsOfRule idemRule).find? (fun p => p.path == idemReq.path) = some idemEntry ∧
    idemEntry.backend.serviceName = idemReq.name ∧
    ingressPatch idemIngress idemReq = (.ok none, idemIngress) ∧
    (ingressPatch idemFresh idemReq).1 = .ok (some [idemRule]) ∧
    ingressPatch (setIngRules idemFresh [idemRule]) idemReq =
      (.ok none, setIngRules idemFresh [idemRule]) ∧
    countTupleRules [idemRule] idemReq = 1 :=
  ⟨by decide, by decide, by decide,
   c5_insert_idempotent.1 idemIngress idemReq idemRule idemEntry (by decide) (by decide) (by decide),
   rfl,
   (c5_insert_idempotent.2 idemFresh idemReq [idemRule] rfl).1,
   (c5_insert_idempotent.2 idemFresh idemReq [idemRule] rfl).2⟩

/-! ## Claim C3: overlay merge semantics -/

/-- Looking up the key just assigned returns the assigned value. -/
theorem lookupF_setField_self (of : List (String × Json)) (k : String) (v : Json) :
    lookupF (setField of k v) k = some v := by
  induction of with
  | nil => simp [setField, lookupF]
  | cons kv fs ih =>
    obtain ⟨k₁, v₁⟩ := kv
    by_cases hk : k₁ = k
    · simp [setField, lookupF, hk]
    · simp [setField, lookupF, hk, ih]

/-- Assigning one key leaves the lookup of any other key unchanged. -/
theorem lookupF_setField_ne (of : List (String × Json)) (k k' : String) (v : Json)
    (h : k' ≠ k) :
    lookupF (setField of k v) k' = lookupF of k' := by
  have h' : ¬(k = k') := fun hh => h hh.symm
  induction of with
  | nil => simp [setField, lookupF, h']
  | cons kv fs ih =>
    obtain ⟨k₁, v₁⟩ := kv
    by_cases hk : k₁ = k
    · subst hk
      simp [setField, lookupF, h']
    · simp [setField, lookupF, hk, ih]

/-- A key absent from the lookup is absent from the key list. -/
theorem lookupF_none_not_mem (sf : List (String × Json)) (k : String)
    (h : lookupF sf k = none) : k ∉ sf.map Prod.fst := by
  induction sf with
  | nil => simp
  | cons kv fs ih =>
    obtain ⟨k₁, v₁⟩ := kv
    by_cases hk : k₁ = k
    · simp [lookupF, hk] at h
    · simp only [lookupF, hk, if_false] at h
      simp only [List.map, List.mem_cons, not_or]
      exact ⟨fun hh => hk hh.symm, ih h⟩

/-- mergeObj leaves the lookup of every key the source does not mention
unchanged (the frame of the merge: sibling fields of the defaults are
untouched). -/
theorem mergeObj_lookup_not_mem (sf : List (String × Json)) :
    ∀ (of m : List (String × Json)) (k : String),
    k ∉ sf.map Prod.fst →
    mergeObj of sf = some m →
    lookupF m k = lookupF of k := by
  induction sf with
  | nil =>
    intro of m k _ h
    simp only [mergeObj, Option.some.injEq] at h
    rw [← h]
  | cons kv rest ih =>
    intro of m k hmem h
    obtain ⟨k₁, sv⟩ := kv
    simp only [List.map, List.mem_cons, not_or] at hmem
    obtain ⟨hk₁, hrest⟩ := hmem
    cases hmv : mergeValue (lookupF of k₁) sv with
    | none => simp [mergeObj, hmv] at h
    | some nv =>
      simp only [mergeObj, hmv] at h
      rw [ih (setField of k₁ nv) m k hrest h]
      exact lookupF_setField_ne of k₁ k nv hk₁

/-- Array fields of the overlay replace the corresponding field wholesale
in the merged object. -/
theorem mergeObj_lookup_arr (sf : List (String × Json)) :
    ∀ (of m : List (String × Json)) (k : String) (xs : List Json),
    (sf.map Prod.fst).Nodup →
    mergeObj of sf = some m →
    lookupF sf k = some (.arr xs) →
    lookupF m k = some (.arr xs) := by
  induction sf with
  | nil => intro of m k xs _ _ hl; simp [lookupF] at hl
  | cons kv rest ih =>
    intro of m k xs hnd h hl
    obtain ⟨k₁, sv⟩ := kv
    simp only [List.map, List.nodup_cons] at hnd
    obtain ⟨hk₁, hnd⟩ := hnd
    by_cases hk : k₁ = k
    · subst hk
      simp only [lookupF, if_pos rfl] at hl
      have hsv : sv = .arr xs := by injection hl
      subst hsv
      have hmv : mergeValue (lookupF of k₁) (.arr xs) = some (.arr xs) := by
        simp [mergeValue]
      simp only [mergeObj, hmv] at h
      rw [mergeObj_lookup_not_mem rest (setField of k₁ (.arr xs)) m k₁ hk₁ h]
      exact lookupF_setField_self of k₁ (.arr xs)
    · simp only [lookupF, hk, if_false] at hl
      cases hmv : mergeValue (lookupF of k₁) sv with
      | none => simp [mergeObj, hmv] at h
      | some nv =>
        simp only [mergeObj, hmv] at h
        exact ih (setField of k₁ nv) m k xs hnd h hl

/-- Plain-object fields of the overlay merge recursively with the matching
default field. -/
theorem mergeObj_lookup_obj (sf : List (String × Json)) :
    ∀ (of m : List (String × Json)) (k : String) (o' s' : List (String × Json)),
    (sf.map Prod.fst).Nodup →
    mergeObj of sf = some m →
    lookupF of k = some (.obj o') →
    lookupF sf k = some (.obj s') →
    lookupF m k = (mergeObj o' s').map Json.obj := by
  induction sf with
  | nil => intro of m k o' s' _ _ _ hl; simp [lookupF] at hl
  | cons kv rest ih =>
    intro of m k o' s' hnd h ho hl
    obtain ⟨k₁, sv⟩ := kv
    simp only [List.map, List.nodup_cons] at hnd
    obtain ⟨hk₁, hnd⟩ := hnd
    by_cases hk : k₁ = k
    · subst hk
      simp only [lookupF, if_pos rfl] at hl
      have hsv : sv = .obj s' := by injection hl
      subst hsv
      have hmv : mergeValue (lookupF of k₁) (.obj s') = (mergeObj o' s').map Json.obj := by
        rw [ho]
        simp [mergeValue]
      cases hms : mergeObj o' s' with
      | none =>
        have hmv2 : mergeValue (lookupF of k₁) (.obj s') = none := by rw [hmv, hms]; rfl
        simp [mergeObj, hmv2] at h
      | some m' =>
        have hmv2 : mergeValue (lookupF of k₁) (.obj s') = some (.obj m') := by rw [hmv, hms]; rfl
        simp only [mergeObj, hmv2] at h
        rw [mergeObj_lookup_not_mem rest (setField of k₁ (.obj m')) m k₁ hk₁ h]
        rw [lookupF_setField_self of k₁ (.obj m')]
        rfl
    · simp only [lookupF, hk, if_false] at hl
      cases hmv : mergeValue (lookupF of k₁) sv with
      | none => simp [mergeObj, hmv] at h
      | some nv =>
        simp only [mergeObj, hmv] at h
        exact ih (setField of k₁ nv) m k o' s' hnd h
          (by rw [lookupF_setField_ne of k₁ k nv (fun hh => hk hh.symm)]; exact ho) hl

/-- C3: overlay merge semantics of smartMerge under lodash mergeWith.  For
every default object and every overlay object without duplicate keys (JSON
parsing never yields duplicates) that merge to some result: an array-valued
overlay field replaces the corresponding field wholesale; a field the
overlay does not mention keeps the default's value (siblings untouched);
and a plain-object overlay field merges recursively with the matching
plain-object default field. -/
theorem c3_overlay_merge :
    (∀ (of sf m : List (String × Json)) (k : String) (xs : List Json),
      (sf.map Prod.fst).Nodup →
      mergeObj of sf = some m →
      lookupF sf k = some (.arr xs) →
      lookupF m k = some (.arr xs)) ∧
    (∀ (of sf m : List (String × Json)) (k : String),
      mergeObj of sf = some m →
      lookupF sf k = none →
      lookupF m k = lookupF of k) ∧
    (∀ (of sf m : List (String × Json)) (k : String) (o' s' : List (String × Json)),
      (sf.map Prod.fst).Nodup →
      mergeObj of sf = some m →
      lookupF of k = some (.obj o') →
      lookupF sf k = some (.obj s') →
      lookupF m k = (mergeObj o' s').map Json.obj) :=
  ⟨fun of sf m k xs hnd h hl => mergeObj_lookup_arr sf of m k xs hnd h hl,
   fun of sf m k h hl => mergeObj_lookup_not_mem sf of m k (lookupF_none_not_mem sf k hl) h,
   fun of sf m k o' s' hnd h ho hl => mergeObj_lookup_obj sf of m k o' s' hnd h ho hl⟩

/-- Concrete default object (a deployment-spec shaped fragment), for the C3
witness. -/
def ovDefault : List (String × Json) :=
  [("replicas", .num 1),
   ("containers", .arr [.obj [("name", .str "a")]]),
   ("nested", .obj [("x", .num 1), ("y", .num 2)])]

/-- Concrete overlay replacing the containers array and recursively merging
the nested object, for the C3 witness. -/
def ovOverlay : List (String × Json) :=
  [("containers", .arr [.obj [("name", .str "x")]]),
   ("nested", .obj [("y", .num 3)])]

/-- The merged object, for the C3 witness. -/
def ovMerged : List (String × Json) :=
  [("replicas", .num 1),
   ("containers", .arr [.obj [("name", .str "x")]]),
   ("nested", .obj [("x", .num 1), ("y", .num 3)])]

/-- Witness for C3: the overlay's containers array replaces the default's
wholesale, the replicas sibling is untouched, and the nested object merges
recursively. -/
theorem c3_overlay_merge_witness :
    (ovOverlay.map Prod.fst).Nodup ∧
    mergeObj ovDefault ovOverlay = some ovMerged ∧
    lookupF ovOverlay "containers" = some (.arr [.obj [("name", .str "x")]]) ∧
    lookupF ovMerged "containers" = some (.arr [.obj [("name", .str "x")]]) ∧
    lookupF ovOverlay "replicas" = none ∧
    lookupF ovMerged "replicas" = lookupF ovDefault "replicas" ∧
    lookupF ovMerged "nested" =
      (mergeObj [("x", .num 1), ("y", .num 2)] [("y", .num 3)]).map Json.obj :=
  ⟨by decide,
   by simp [mergeObj, mergeValue, lookupF, setField, ovDefault, ovOverlay, ovMerged],
   rfl,
   c3_overlay_merge.1 ovDefault ovOverlay ovMerged "containers" [.obj [("name", .str "x")]]
     (by decide)
     (by simp [mergeObj, mergeValue, lookupF, setField, ovDefault, ovOverlay, ovMerged])
     rfl,
   rfl,
   c3_overlay_merge.2.1 ovDefault ovOverlay ovMerged "replicas"
     (by simp [mergeObj, mergeValue, lookupF, setField, ovDefault, ovOverlay, ovMerged])
     rfl,
   c3_overlay_merge.2.2 ovDefault ovOverlay ovMerged "nested"
     [("x", .num 1), ("y", .num 2)] [("y", .num 3)]
     (by decide)
     (by simp [mergeObj, mergeValue, lookupF, setField, ovDefault, ovOverlay, ovMerged])
     rfl
     rfl⟩

/-! ## Lemmas on the upsert pipeline steps -/

/-- The namespace step only ever attempts namespace creates. -/
theorem upsertNamespace_rank (env : ClusterEnv) (req : KubeApplication) :
    ∀ a ∈ (upsertNamespace env req).2, actionRank a = 0 := by
  intro a ha
  cases hg : env.nsGetOk with
  | true => simp [upsertNamespace, hg] at ha
  | false =>
    simp only [upsertNamespace, hg, Bool.false_eq_true, if_false, List.mem_singleton] at ha
    rw [ha]
    rfl

/-- The service step only ever attempts service creates. -/
theorem upsertService_rank (env : ClusterEnv) (parse : String → Option Json)
    (req : KubeApplication) :
    ∀ a ∈ (upsertService env parse req).2, actionRank a = 1 := by
  intro a ha
  cases ht : natTruthy req.port with
  | false => simp [upsertService, ht] at ha
  | true =>
    cases hg : env.svcGetOk with
    | true => simp [upsertService, ht, hg] at ha
    | false =>
      cases hst : serviceTemplate parse req with
      | error e => simp [upsertService, ht, hg, hst] at ha
      | ok svc =>
        simp only [upsertService, ht, hg, Bool.not_true, Bool.false_eq_true, if_false,
          hst, List.mem_singleton] at ha
        rw [ha]
        rfl

/-- The deployment step only ever attempts deployment patches or creates. -/
theorem upsertDeployment_rank (env : ClusterEnv) (parse : String → Option Json)
    (whEnv : Option String) (req : KubeApplication) :
    ∀ a ∈ (upsertDeployment env parse whEnv req).2, actionRank a = 2 := by
  intro a ha
  cases hg : env.depGetOk with
  | true =>
    simp only [upsertDeployment, hg, if_true, List.mem_singleton] at ha
    rw [ha]
    rfl
  | false =>
    cases hdt : deploymentTemplate parse whEnv req with
    | error e => simp [upsertDeployment, hg, hdt] at ha
    | ok dep =>
      simp only [upsertDeployment, hg, Bool.false_eq_true, if_false, hdt,
        List.mem_singleton] at ha
      rw [ha]
      rfl

/-- The ingress step only ever attempts ingress patches or creates. -/
theorem upsertIngress_rank (env : ClusterEnv) (req : KubeApplication) :
    ∀ a ∈ (upsertIngress env req).2, actionRank a = 3 := by
  intro a ha
  cases ht : strTruthy req.path with
  | false => simp [upsertIngress, ht] at ha
  | true =>
    cases hig : env.ingGet with
    | none =>
      simp only [upsertIngress, ht, Bool.not_true, Bool.false_eq_true, if_false, hig,
        List.mem_singleton] at ha
      rw [ha]
      rfl
    | some ing =>
      cases hip : (ingressPatch ing req).1 with
      | error e => simp [upsertIngress, ht, hig, hip] at ha
      | ok o =>
        cases o with
        | none => simp [upsertIngress, ht, hig, hip] at ha
        | some rules =>
          simp only [upsertIngress, ht, Bool.not_true, Bool.false_eq_true, if_false, hig,
            hip, List.mem_singleton] at ha
          rw [ha]
          rfl

/-- A list whose elements all have one rank is sorted by rank. -/
theorem pairwise_rank_const (l : List KubeAction) (r : Nat)
    (h : ∀ a ∈ l, actionRank a = r) :
    l.Pairwise (fun a b => actionRank a ≤ actionRank b) := by
  induction l with
  | nil => exact List.Pairwise.nil
  | cons a l ih =>
    refine List.Pairwise.cons ?_ (ih (fun b hb => h b (List.mem_cons_of_mem a hb)))
    intro b hb
    rw [h a (List.mem_cons_self a l), h b (List.mem_cons_of_mem a hb)]

/-- Appending rank-sorted segments with a cross bound stays rank-sorted. -/
theorem pairwise_rank_append (l₁ l₂ : List KubeAction)
    (p₁ : l₁.Pairwise (fun a b => actionRank a ≤ actionRank b))
    (p₂ : l₂.Pairwise (fun a b => actionRank a ≤ actionRank b))
    (hcross : ∀ a ∈ l₁, ∀ b ∈ l₂, actionRank a ≤ actionRank b) :
    (l₁ ++ l₂).Pairwise (fun a b => actionRank a ≤ actionRank b) :=
  List.pairwise_append.mpr ⟨p₁, p₂, hcross⟩

/-! ## Claim C7: redeploy patches strictly the container image -/

/-- C7: whenever the deployment existence read succeeds, the engine issues
exactly one deployment action: a patch whose body consists only of
spec.template.spec.containers with the container name and the new image
(so the full template is never re-sent and no other field of the existing
deployment is carried in the patch); when the patch call succeeds the step
succeeds. -/
theorem c7_redeploy_patches_only_image :
    ∀ (env : ClusterEnv) (parse : String → Option Json) (whEnv : Option String)
      (req : KubeApplication),
    env.depGetOk = true →
    (upsertDeployment env parse whEnv req).2 =
      [.patchDeployment (Json.obj [("spec", .obj [
        ("template", .obj [
          ("spec", .obj [
            ("containers", .arr [.obj [
              ("name", .str req.name),
              ("image", .str req.image)]])])])])])] ∧
    (env.depPatchOk = true → (upsertDeployment env parse whEnv req).1 = .ok ()) := by
  intro env parse whEnv req hget
  constructor
  · simp [upsertDeployment, hget, imagePatch]
  · intro hpatch
    simp [upsertDeployment, hget, retryOutcome, hpatch]

/-- Cluster oracle whose deployment read succeeds, for the C7 witness. -/
def redeployEnv : ClusterEnv :=
  { nsGetOk := true, svcGetOk := true, depGetOk := true, ingGet := none
    nsPostOk := true, svcPostOk := true, depPostOk := true, depPatchOk := true
    ingPostOk := true, ingPatchOk := true, ingDeleteOk := true
    svcDeleteOk := true, depDeleteOk := true }

/-- Concrete redeploy request, for the C7 witness. -/
def redeployReq : KubeApplication :=
  { teamId := "t", env := "e", name := "app", ns := "ns", image := "img:2"
    imagePullSecret := none, port := none, path := none, host := none
    protocol := none, deploymentSpec := none, serviceSpec := none }

/-- Witness for C7 at a concrete oracle and request. -/
theorem c7_redeploy_patches_only_image_witness :
    redeployEnv.depGetOk = true ∧
    redeployEnv.depPatchOk = true ∧
    (upsertDeployment redeployEnv (fun _ => none) none redeployReq).2 =
      [.patchDeployment (Json.obj [("spec", .obj [
        ("template", .obj [
          ("spec", .obj [
            ("containers", .arr [.obj [
              ("name", .str redeployReq.name),
              ("image", .str redeployReq.image)]])])])])])] ∧
    (upsertDeployment redeployEnv (fun _ => none) none redeployReq).1 = .ok () :=
  ⟨rfl, rfl,
   (c7_redeploy_patches_only_image redeployEnv (fun _ => none) none redeployReq rfl).1,
   (c7_redeploy_patches_only_image redeployEnv (fun _ => none) none redeployReq rfl).2 rfl⟩

/-! ## Claim C6: upsert ordering -/

/-- Concatenating the four pipeline segments in order is sorted by rank. -/
theorem pairwise_rank_four (t1 t2 t3 t4 : List KubeAction)
    (H1 : ∀ a ∈ t1, actionRank a = 0) (H2 : ∀ a ∈ t2, actionRank a = 1)
    (H3 : ∀ a ∈ t3, actionRank a = 2) (H4 : ∀ a ∈ t4, actionRank a = 3) :
    (t1 ++ t2 ++ t3 ++ t4).Pairwise (fun a b => actionRank a ≤ actionRank b) := by
  have Hle12 : ∀ a ∈ t1 ++ t2, actionRank a ≤ 2 := by
    intro a ha
    rcases List.mem_append.mp ha with h | h
    · rw [H1 a h]; omega
    · rw [H2 a h]; omega
  have Hle123 : ∀ a ∈ t1 ++ t2 ++ t3, actionRank a ≤ 3 := by
    intro a ha
    rcases List.mem_append.mp ha with h | h
    · have := Hle12 a h; omega
    · rw [H3 a h]; omega
  have P12 : (t1 ++ t2).Pairwise (fun a b => actionRank a ≤ actionRank b) :=
    pairwise_rank_append t1 t2 (pairwise_rank_const t1 0 H1) (pairwise_rank_const t2 1 H2)
      (fun a ha b hb => by rw [H1 a ha, H2 b hb]; omega)
  have P123 : (t1 ++ t2 ++ t3).Pairwise (fun a b => actionRank a ≤ actionRank b) :=
    pairwise_rank_append (t1 ++ t2) t3 P12 (pairwise_rank_const t3 2 H3)
      (fun a ha b hb => by rw [H3 b hb]; exact Hle12 a ha)
  exact pairwise_rank_append (t1 ++ t2 ++ t3) t4 P123 (pairwise_rank_const t4 3 H4)
    (fun a ha b hb => by rw [H4 b hb]; exact Hle123 a ha)

/-- C6: upsert ordering.  (1) Every trace of upsertApplication is ordered
by resource rank: no service, deployment, or ingress mutation ever precedes
a namespace one, and so on down the pipeline.  (2) On a fresh cluster with
port and path set and no overlays, exactly the four creates are issued, in
the order namespace, service, deployment, ingress.  (3, 4, 5) A failure of
the namespace, service, or deployment step aborts the pipeline: the result
is the wrapped error and the trace contains only the earlier steps'
actions. -/
theorem c6_upsert_ordering :
    (∀ (env : ClusterEnv) (parse : String → Option Json) (whEnv : Option String)
       (req : KubeApplication),
      (upsertApplication env parse whEnv req).2.Pairwise
        (fun a b => actionRank a ≤ actionRank b)) ∧
    (∀ (env : ClusterEnv) (parse : String → Option Json) (whEnv : Option String)
       (req : KubeApplication),
      natTruthy req.port = true → strTruthy req.path = true →
      req.deploymentSpec = none → req.serviceSpec = none →
      env.nsGetOk = false → env.svcGetOk = false → env.depGetOk = false →
      env.ingGet = none →
      env.nsPostOk = true → env.svcPostOk = true → env.depPostOk = true →
      env.ingPostOk = true →
      upsertApplication env parse whEnv req =
        (.ok (), [.createNamespace (namespaceTemplate req),
                  .createService (defaultService req),
                  .createDeployment (defaultDeployment whEnv req),
                  .createIngress (ingressTemplate req)])) ∧
    (∀ (env : ClusterEnv) (parse : String → Option Json) (whEnv : Option String)
       (req : KubeApplication) (e : String),
      (upsertNamespace env req).1 = .error e →
      upsertApplication env parse whEnv req =
        (.error (preErrMsg e "upserting failed"), (upsertNamespace env req).2)) ∧
    (∀ (env : ClusterEnv) (parse : String → Option Json) (whEnv : Option String)
       (req : KubeApplication) (e : String),
      (upsertNamespace env req).1 = .ok () →
      (upsertService env parse req).1 = .error e →
      upsertApplication env parse whEnv req =
        (.error (preErrMsg e "upserting failed"),
         (upsertNamespace env req).2 ++ (upsertService env parse req).2)) ∧
    (∀ (env : ClusterEnv) (parse : String → Option Json) (whEnv : Option String)
       (req : KubeApplication) (e : String),
      (upsertNamespace env req).1 = .ok () →
      (upsertService env parse req).1 = .ok () →
      (upsertDeployment env parse whEnv req).1 = .error e →
      upsertApplication env parse whEnv req =
        (.error (preErrMsg e "upserting failed"),
         (upsertNamespace env req).2 ++ (upsertService env parse req).2 ++
           (upsertDeployment env parse whEnv req).2)) := by
  refine ⟨?_, ?_, ?_, ?_, ?_⟩
  · intro env parse whEnv req
    rcases h1 : upsertNamespace env req with ⟨r1, t1⟩
    rcases h2 : upsertService env parse req with ⟨r2, t2⟩
    rcases h3 : upsertDeployment env parse whEnv req with ⟨r3, t3⟩
    rcases h4 : upsertIngress env req with ⟨r4, t4⟩
    have H1 : ∀ a ∈ t1, actionRank a = 0 := by
      have := upsertNamespace_rank env req; rw [h1] at this; exact this
    have H2 : ∀ a ∈ t2, actionRank a = 1 := by
      have := upsertService_rank env parse req; rw [h2] at this; exact this
    have H3 : ∀ a ∈ t3, actionRank a = 2 := by
      have := upsertDeployment_rank env parse whEnv req; rw [h3] at this; exact this
    have H4 : ∀ a ∈ t4, actionRank a = 3 := by
      have := upsertIngress_rank env req; rw [h4] at this; exact this
    cases r1 with
    | error e =>
      simp only [upsertApplication, h1]
      simpa using pairwise_rank_four t1 [] [] [] H1 (by simp) (by simp) (by simp)
    | ok u =>
      cases r2 with
      | error e =>
        simp only [upsertApplication, h1, h2]
        simpa using pairwise_rank_four t1 t2 [] [] H1 H2 (by simp) (by simp)
      | ok u2 =>
        cases r3 with
        | error e =>
          simp only [upsertApplication, h1, h2, h3]
          simpa using pairwise_rank_four t1 t2 t3 [] H1 H2 H3 (by simp)
        | ok u3 =>
          cases r4 with
          | error e =>
            simp only [upsertApplication, h1, h2, h3, h4]
            exact pairwise_rank_four t1 t2 t3 t4 H1 H2 H3 H4
          | ok u4 =>
            simp only [upsertApplication, h1, h2, h3, h4]
            exact pairwise_rank_four t1 t2 t3 t4 H1 H2 H3 H4
  · intro env parse whEnv req hport hpath hds hss hns hsvc hdep hing hnsp hsvcp hdepp hingp
    have e1 : upsertNamespace env req = (.ok (), [.createNamespace (namespaceTemplate req)]) := by
      simp [upsertNamespace, hns, hnsp, retryOutcome]
    have est : serviceTemplate parse req = .ok (defaultService req) := by
      simp [serviceTemplate, hss, strTruthy]
    have e2 : upsertService env parse req = (.ok (), [.createService (defaultService req)]) := by
      simp [upsertService, hport, hsvc, est, hsvcp, retryOutcome]
    have edt : deploymentTemplate parse whEnv req = .ok (defaultDeployment whEnv req) := by
      simp [deploymentTemplate, hds, strTruthy]
    have e3 : upsertDeployment env parse whEnv req =
        (.ok (), [.createDeployment (defaultDeployment whEnv req)]) := by
      simp [upsertDeployment, hdep, edt, hdepp, retryOutcome]
    have e4 : upsertIngress env req = (.ok (), [.createIngress (ingressTemplate req)]) := by
      simp [upsertIngress, hpath, hing, hingp, retryOutcome]
    simp [upsertApplication, e1, e2, e3, e4]
  · intro env parse whEnv req e he
    rcases h1 : upsertNamespace env req with ⟨r1, t1⟩
    rw [h1] at he
    simp only at he
    subst he
    simp [upsertApplication, h1]
  · intro env parse whEnv req e hok he
    rcases h1 : upsertNamespace env req with ⟨r1, t1⟩
    rcases h2 : upsertService env parse req with ⟨r2, t2⟩
    rw [h1] at hok
    rw [h2] at he
    simp only at hok he
    subst hok
    subst he
    simp [upsertApplication, h1, h2]
  · intro env parse whEnv req e hok1 hok2 he
    rcases h1 : upsertNamespace env req with ⟨r1, t1⟩
    rcases h2 : upsertService env parse req with ⟨r2, t2⟩
    rcases h3 : upsertDeployment env parse whEnv req with ⟨r3, t3⟩
    rw [h1] at hok1
    rw [h2] at hok2
    rw [h3] at he
    simp only at hok1 hok2 he
    subst hok1
    subst hok2
    subst he
    simp [upsertApplication, h1, h2, h3]

/-- Fresh-cluster oracle: nothing exists, every create succeeds, for the C6
witness. -/
def freshEnv : ClusterEnv :=
  { nsGetOk := false, svcGetOk := false, depGetOk := false, ingGet := none
    nsPostOk := true, svcPostOk := true, depPostOk := true, depPatchOk := true
    ingPostOk := true, ingPatchOk := true, ingDeleteOk := true
    svcDeleteOk := true, depDeleteOk := true }

/-- Oracle whose namespace create fails, for the C6 witness. -/
def nsFailEnv : ClusterEnv :=
  { freshEnv with nsPostOk := false }

/-- Oracle whose service create fails after the namespace exists, for the
C6 witness. -/
def svcFailEnv : ClusterEnv :=
  { freshEnv with nsGetOk := true, svcPostOk := false }

/-- Oracle whose deployment create fails after namespace and service exist,
for the C6 witness. -/
def depFailEnv : ClusterEnv :=
  { freshEnv with nsGetOk := true, svcGetOk := true, depPostOk := false }

/-- Full descriptor with port and path set and no overlays, for the C6
witness. -/
def fullReq : KubeApplication :=
  { teamId := "t", env := "e", name := "app", ns := "ns", image := "img"
    imagePullSecret := none, port := some 8080, path := some "/p", host := some "h"
    protocol := none, deploymentSpec := none, serviceSpec := none }

/-- Witness for C6: the fresh-cluster scenario creates the four resources
in pipeline order, each step failure truncates the trace at that step, and
the achieved trace is rank-sorted. -/
theorem c6_upsert_ordering_witness :
    natTruthy fullReq.port = true ∧
    strTruthy fullReq.path = true ∧
    upsertApplication freshEnv (fun _ => none) none fullReq =
      (.ok (), [.createNamespace (namespaceTemplate fullReq),
                .createService (defaultService fullReq),
                .createDeployment (defaultDeployment none fullReq),
                .createIngress (ingressTemplate fullReq)]) ∧
    (upsertApplication freshEnv (fun _ => none) none fullReq).2.Pairwise
      (fun a b => actionRank a ≤ actionRank b) ∧
    (upsertNamespace nsFailEnv fullReq).1 = .error "Failed to Create namespace ns" ∧
    upsertApplication nsFailEnv (fun _ => none) none fullReq =
      (.error (preErrMsg "Failed to Create namespace ns" "upserting failed"),
       [.createNamespace (namespaceTemplate fullReq)]) ∧
    (upsertService svcFailEnv (fun _ => none) fullReq).1 =
      .error "Failed to create service ns/app" ∧
    upsertApplication svcFailEnv (fun _ => none) none fullReq =
      (.error (preErrMsg "Failed to create service ns/app" "upserting failed"),
       [.createService (defaultService fullReq)]) ∧
    (upsertDeployment depFailEnv (fun _ => none) none fullReq).1 =
      .error "Failed to create deployment ns/app" ∧
    upsertApplication depFailEnv (fun _ => none) none fullReq =
      (.error (preErrMsg "Failed to create deployment ns/app" "upserting failed"),
       [.createDeployment (defaultDeployment none fullReq)]) :=
  ⟨rfl, rfl,
   c6_upsert_ordering.2.1 freshEnv (fun _ => none) none fullReq
     rfl rfl rfl rfl rfl rfl rfl rfl rfl rfl rfl rfl,
   c6_upsert_ordering.1 freshEnv (fun _ => none) none fullReq,
   rfl,
   c6_upsert_ordering.2.2.1 nsFailEnv (fun _ => none) none fullReq
     "Failed to Create namespace ns" rfl,
   rfl,
   c6_upsert_ordering.2.2.2.1 svcFailEnv (fun _ => none) none fullReq
     "Failed to create service ns/app" rfl rfl,
   rfl,
   c6_upsert_ordering.2.2.2.2 depFailEnv (fun _ => none) none fullReq
     "Failed to create deployment ns/app" rfl rfl rfl⟩

/-! ## Claim C4: where overlay validation happens in the pipeline -/

/-- Whether an engine result is a success. -/
def exceptIsOk : Except String Unit → Bool
  | .ok _ => true
  | .error _ => false

/-- C4 as amended.  An unparsable deploymentSpec makes the deployment step
fail with the parse error whenever the deployment must be created (its
read fails); the whole upsert then fails and no deployment or ingress
mutation is attempted on that invocation — but earlier pipeline steps
(namespace, service) may already have mutated the cluster.  Likewise an
unparsable serviceSpec (with a port set and the service read failing)
fails the service step and the upsert, with at most the namespace mutated. -/
theorem c4_overlay_validation :
    (∀ (env : ClusterEnv) (parse : String → Option Json) (whEnv : Option String)
       (req : KubeApplication) (s : String),
      req.deploymentSpec = some s → s ≠ "" → parse s = none → env.depGetOk = false →
      (upsertDeployment env parse whEnv req).1 =
        .error "Failed to parse provided deployment spec as JSON" ∧
      exceptIsOk (upsertApplication env parse whEnv req).1 = false ∧
      (∀ a ∈ (upsertApplication env parse whEnv req).2, actionRank a ≤ 1)) ∧
    (∀ (env : ClusterEnv) (parse : String → Option Json) (whEnv : Option String)
       (req : KubeApplication) (s : String),
      req.serviceSpec = some s → s ≠ "" → parse s = none →
      natTruthy req.port = true → env.svcGetOk = false →
      (upsertService env parse req).1 =
        .error "Failed to parse provided service spec as JSON" ∧
      exceptIsOk (upsertApplication env parse whEnv req).1 = false ∧
      (∀ a ∈ (upsertApplication env parse whEnv req).2, actionRank a = 0)) := by
  constructor
  · intro env parse whEnv req s hds hsne hparse hdep
    have hst : strTruthy (some s) = true := by
      simp [strTruthy, beq_eq_false_iff_ne.mpr hsne]
    have hdt : deploymentTemplate parse whEnv req =
        .error "Failed to parse provided deployment spec as JSON" := by
      simp [deploymentTemplate, hds, hst, hparse]
    have hstep : upsertDeployment env parse whEnv req =
        (.error "Failed to parse provided deployment spec as JSON", []) := by
      simp [upsertDeployment, hdep, hdt]
    refine ⟨by rw [hstep], ?_⟩
    rcases h1 : upsertNamespace env req with ⟨r1, t1⟩
    have H1 : ∀ a ∈ t1, actionRank a = 0 := by
      have := upsertNamespace_rank env req; rw [h1] at this; exact this
    cases r1 with
    | error e =>
      simp only [upsertApplication, h1]
      exact ⟨rfl, fun a ha => by have := H1 a ha; omega⟩
    | ok u =>
      rcases h2 : upsertService env parse req with ⟨r2, t2⟩
      have H2 : ∀ a ∈ t2, actionRank a = 1 := by
        have := upsertService_rank env parse req; rw [h2] at this; exact this
      cases r2 with
      | error e =>
        simp only [upsertApplication, h1, h2]
        refine ⟨rfl, fun a ha => ?_⟩
        rcases List.mem_append.mp ha with h | h
        · have := H1 a h; omega
        · have := H2 a h; omega
      | ok u2 =>
        simp only [upsertApplication, h1, h2, hstep, List.append_nil]
        refine ⟨rfl, fun a ha => ?_⟩
        rcases List.mem_append.mp ha with h | h
        · have := H1 a h; omega
        · have := H2 a h; omega
  · intro env parse whEnv req s hss hsne hparse hport hsvc
    have hst : strTruthy (some s) = true := by
      simp [strTruthy, beq_eq_false_iff_ne.mpr hsne]
    have hsvct : serviceTemplate parse req =
        .error "Failed to parse provided service spec as JSON" := by
      simp [serviceTemplate, hss, hst, hparse]
    have hstep : upsertService env parse req =
        (.error "Failed to parse provided service spec as JSON", []) := by
      simp [upsertService, hport, hsvc, hsvct]
    refine ⟨by rw [hstep], ?_⟩
    rcases h1 : upsertNamespace env req with ⟨r1, t1⟩
    have H1 : ∀ a ∈ t1, actionRank a = 0 := by
      have := upsertNamespace_rank env req; rw [h1] at this; exact this
    cases r1 with
    | error e =>
      simp only [upsertApplication, h1]
      exact ⟨rfl, fun a ha => H1 a ha⟩
    | ok u =>
      simp only [upsertApplication, h1, hstep, List.append_nil]
      exact ⟨rfl, fun a ha => H1 a ha⟩

/-- Cluster oracle for C4: nothing exists yet and creates succeed. -/
def c4Env : ClusterEnv :=
  { nsGetOk := false, svcGetOk := false, depGetOk := false, ingGet := none
    nsPostOk := true, svcPostOk := true, depPostOk := true, depPatchOk := true
    ingPostOk := true, ingPatchOk := true, ingDeleteOk := true
    svcDeleteOk := true, depDeleteOk := true }

/-- Descriptor with an unparsable deploymentSpec and no port or path, for
the C4 counterexample. -/
def c4ReqCounter : KubeApplication :=
  { teamId := "t", env := "e", name := "app", ns := "ns", image := "img"
    imagePullSecret := none, port := none, path := none, host := none
    protocol := none, deploymentSpec := some "%%%", serviceSpec := none }

/-- Descriptor with unparsable overlays and a port, for the C4 witness. -/
def c4ReqW : KubeApplication :=
  { teamId := "t", env := "e", name := "app", ns := "ns", image := "img"
    imagePullSecret := none, port := some 8080, path := none, host := none
    protocol := none, deploymentSpec := some "%%%", serviceSpec := some "%%%" }

/-- C4 counterexample: with an unparsable deploymentSpec and a namespace
that does not exist yet, upsertApplication does report the validation
error, but only after attempting the namespace create — the trace of
attempted cluster mutations is not empty, contradicting the claim that no
create of any resource is attempted. -/
theorem c4_overlay_validation_counterexample :
    upsertApplication c4Env (fun _ => none) none c4ReqCounter =
      (.error (preErrMsg "Failed to parse provided deployment spec as JSON" "upserting failed"),
       [.createNamespace (namespaceTemplate c4ReqCounter)]) ∧
    [KubeAction.createNamespace (namespaceTemplate c4ReqCounter)] ≠ [] :=
  ⟨rfl, by simp⟩

/-- Witness for C4 as amended, at a concrete oracle and descriptor with
both overlays unparsable. -/
theorem c4_overlay_validation_witness :
    c4ReqW.deploymentSpec = some "%%%" ∧
    ("%%%" : String) ≠ "" ∧
    ((fun _ => none : String → Option Json) "%%%") = none ∧
    c4Env.depGetOk = false ∧
    (upsertDeployment c4Env (fun _ => none) none c4ReqW).1 =
      .error "Failed to parse provided deployment spec as JSON" ∧
    c4ReqW.serviceSpec = some "%%%" ∧
    natTruthy c4ReqW.port = true ∧
    c4Env.svcGetOk = false ∧
    (upsertService c4Env (fun _ => none) c4ReqW).1 =
      .error "Failed to parse provided service spec as JSON" ∧
    exceptIsOk (upsertApplication c4Env (fun _ => none) none c4ReqW).1 = false ∧
    actionRank (KubeAction.createNamespace (namespaceTemplate c4ReqW)) = 0 :=
  ⟨rfl, by decide, rfl, rfl,
   (c4_overlay_validation.1 c4Env (fun _ => none) none c4ReqW "%%%"
     rfl (by decide) rfl rfl).1,
   rfl, rfl, rfl,
   (c4_overlay_validation.2 c4Env (fun _ => none) none c4ReqW "%%%"
     rfl (by decide) rfl rfl rfl).1,
   (c4_overlay_validation.2 c4Env (fun _ => none) none c4ReqW "%%%"
     rfl (by decide) rfl rfl rfl).2.1,
   (c4_overlay_validation.2 c4Env (fun _ => none) none c4ReqW "%%%"
     rfl (by decide) rfl rfl rfl).2.2
     (KubeAction.createNamespace (namespaceTemplate c4ReqW))
     (by exact List.mem_singleton.mpr rfl)⟩

/-! ## Claim C8: delete aggregation -/

/-- C8: deleteApplication attempts all three removals regardless of
earlier failures (the trace is always the concatenation of the three
sub-traces); a missing service counts as success; the call succeeds
exactly when all three sub-removals succeed; when sub-removals fail the
aggregate error lists every failed one; and in the scenario where the
service is gone but the deployment and ingress rule exist, the call
succeeds while patching the ingress and deleting the deployment. -/
theorem c8_delete_aggregation :
    (∀ (env : ClusterEnv) (req : KubeDelete),
      (deleteApplication env req).2 =
        (deleteIngress env req).2 ++ (deleteService env req).2 ++
          (deleteDeployment env req).2) ∧
    (∀ (env : ClusterEnv) (req : KubeDelete),
      env.svcGetOk = false → (deleteService env req).1 = .ok ()) ∧
    (∀ (env : ClusterEnv) (req : KubeDelete),
      (deleteApplication env req).1 = .ok () ↔
        ((deleteIngress env req).1 = .ok () ∧ (deleteService env req).1 = .ok () ∧
         (deleteDeployment env req).1 = .ok ())) ∧
    (∀ (env : ClusterEnv) (req : KubeDelete) (e₁ e₂ e₃ : String),
      (deleteIngress env req).1 = .error e₁ →
      (deleteService env req).1 = .error e₂ →
      (deleteDeployment env req).1 = .error e₃ →
      (deleteApplication env req).1 = .error ("Failed to delete application: " ++
        String.intercalate "; " [
          preErrMsg e₁ ("failed to remove rule for " ++ (req.ns ++ "/" ++ req.name) ++
            " from ingress"),
          preErrMsg e₂ ("failed to delete service " ++ (req.ns ++ "/" ++ req.name)),
          preErrMsg e₃ ("failed to delete deployment " ++ (req.ns ++ "/" ++ req.name))])) ∧
    (∀ (env : ClusterEnv) (req : KubeDelete) (ing : Ingress) (rs : List IngressRule),
      env.svcGetOk = false → env.depGetOk = true → env.depDeleteOk = true →
      env.ingGet = some ing → strTruthy req.path = true →
      (ingressRemove ing req).1 = .ok (.patch rs) → env.ingPatchOk = true →
      deleteApplication env req = (.ok (), [.patchIngress (.rules rs), .deleteDeploymentRes])) := by
  refine ⟨?_, ?_, ?_, ?_, ?_⟩
  · intro env req
    rcases h1 : deleteIngress env req with ⟨r1, t1⟩
    rcases h2 : deleteService env req with ⟨r2, t2⟩
    rcases h3 : deleteDeployment env req with ⟨r3, t3⟩
    cases r1 <;> cases r2 <;> cases r3 <;> simp [deleteApplication, h1, h2, h3]
  · intro env req h
    simp [deleteService, h]
  · intro env req
    rcases h1 : deleteIngress env req with ⟨r1, t1⟩
    rcases h2 : deleteService env req with ⟨r2, t2⟩
    rcases h3 : deleteDeployment env req with ⟨r3, t3⟩
    cases r1 <;> cases r2 <;> cases r3 <;> simp [deleteApplication, h1, h2, h3]
  · intro env req e₁ e₂ e₃ h1' h2' h3'
    rcases h1 : deleteIngress env req with ⟨r1, t1⟩
    rcases h2 : deleteService env req with ⟨r2, t2⟩
    rcases h3 : deleteDeployment env req with ⟨r3, t3⟩
    rw [h1] at h1'; rw [h2] at h2'; rw [h3] at h3'
    simp only at h1' h2' h3'
    subst h1'; subst h2'; subst h3'
    simp [deleteApplication, h1, h2, h3]
  · intro env req ing rs hsvc hdep hdepd hig hpath hir hipo
    have hd1 : deleteIngress env req = (.ok (), [.patchIngress (.rules rs)]) := by
      simp [deleteIngress, hpath, hig, hir, hipo, retryOutcome]
    have hd2 : deleteService env req = (.ok (), []) := by
      simp [deleteService, hsvc]
    have hd3 : deleteDeployment env req = (.ok (), [.deleteDeploymentRes]) := by
      simp [deleteDeployment, hdep, hdepd, retryOutcome]
    simp [deleteApplication, hd1, hd2, hd3]

/-- Ingress holding the requesting application's rule plus another
application's rule, for the C8 witness. -/
def c8Ingress : Ingress :=
  { metadata := none
    spec := some { rules := some [
      { host := some "h"
        http := some { paths := [
          { path := some "/p"
            backend := { serviceName := "app", servicePort := .str "http" } }] } },
      { host := some "other"
        http := some { paths := [
          { path := some "/q"
            backend := { serviceName := "other-svc", servicePort := .str "http" } }] } }] } }

/-- The rules left after removing the requesting application's rule, for
the C8 witness. -/
def c8Remaining : List IngressRule :=
  [{ host := some "other"
     http := some { paths := [
       { path := some "/q"
         backend := { serviceName := "other-svc", servicePort := .str "http" } }] } }]

/-- Oracle for the C8 scenario: service gone, deployment and ingress rule
present, all deletions succeed. -/
def c8Env : ClusterEnv :=
  { nsGetOk := true, svcGetOk := false, depGetOk := true, ingGet := some c8Ingress
    nsPostOk := true, svcPostOk := true, depPostOk := true, depPatchOk := true
    ingPostOk := true, ingPatchOk := true, ingDeleteOk := true
    svcDeleteOk := true, depDeleteOk := true }

/-- Oracle for the all-fail aggregation case of the C8 witness. -/
def c8FailEnv : ClusterEnv :=
  { c8Env with
    svcGetOk := true
    svcDeleteOk := false
    depDeleteOk := false
    ingPatchOk := false }

/-- Delete request of the application whose service is gone, for the C8
witness. -/
def c8Req : KubeDelete :=
  { name := "app", ns := "ns", path := some "/p", host := some "h" }

/-- Witness for C8 at concrete oracles: the scenario succeeds while
patching the ingress and deleting the deployment, the success iff holds,
and with all three sub-removals failing the aggregate error lists all
three failures. -/
theorem c8_delete_aggregation_witness :
    c8Env.svcGetOk = false ∧
    (ingressRemove c8Ingress c8Req).1 = .ok (.patch c8Remaining) ∧
    deleteApplication c8Env c8Req =
      (.ok (), [.patchIngress (.rules c8Remaining), .deleteDeploymentRes]) ∧
    (deleteService c8Env c8Req).1 = .ok () ∧
    ((deleteApplication c8Env c8Req).1 = .ok () ↔
      ((deleteIngress c8Env c8Req).1 = .ok () ∧ (deleteService c8Env c8Req).1 = .ok () ∧
       (deleteDeployment c8Env c8Req).1 = .ok ())) ∧
    (deleteIngress c8FailEnv c8Req).1 = .error "Failed to remove path from ingress" ∧
    (deleteService c8FailEnv c8Req).1 = .error "Failed to delete service ns/app" ∧
    (deleteDeployment c8FailEnv c8Req).1 = .error "Failed to delete deployment ns/app" ∧
    (deleteApplication c8FailEnv c8Req).1 = .error ("Failed to delete application: " ++
      String.intercalate "; " [
        preErrMsg "Failed to remove path from ingress"
          ("failed to remove rule for " ++ (c8Req.ns ++ "/" ++ c8Req.name) ++ " from ingress"),
        preErrMsg "Failed to delete service ns/app"
          ("failed to delete service " ++ (c8Req.ns ++ "/" ++ c8Req.name)),
        preErrMsg "Failed to delete deployment ns/app"
          ("failed to delete deployment " ++ (c8Req.ns ++ "/" ++ c8Req.name))]) :=
  ⟨rfl, rfl,
   c8_delete_aggregation.2.2.2.2 c8Env c8Req c8Ingress c8Remaining
     rfl rfl rfl rfl rfl rfl rfl,
   c8_delete_aggregation.2.1 c8Env c8Req rfl,
   c8_delete_aggregation.2.2.1 c8Env c8Req,
   rfl, rfl, rfl,
   c8_delete_aggregation.2.2.2.1 c8FailEnv c8Req
     "Failed to remove path from ingress" "Failed to delete service ns/app"
     "Failed to delete deployment ns/app" rfl rfl rfl⟩

/-! ## Claim C10: retryP ignores its options parameter -/

/-- C10: the retry wrapper ignores its options parameter.  (1) The result
of retryP never depends on the options a caller passes.  (2) The policy it
always applies is the fixed default: 5 retries, back-off factor 2, minimum
timeout 100 ms, maximum timeout 3000 ms, randomized jitter.  (3) Whenever
the first six attempts fail, retryP gives up with the wrapped last error no
matter how many retries the caller's options would have allowed, so a
custom per-operation policy never takes effect. -/
theorem c10_retryP_ignores_options :
    (∀ {α : Type} (k : Nat → Except String α) (desc : String) (o₁ o₂ : RetryOptions),
      retryP k desc o₁ = retryP k desc o₂) ∧
    defaultRetryOptions =
      { retries := 5, factor := 2, minTimeout := 100, maxTimeout := 3000, randomize := true } ∧
    (∀ {α : Type} (k : Nat → Except String α) (desc m : String) (options : RetryOptions),
      k 1 = .error m → k 2 = .error m → k 3 = .error m →
      k 4 = .error m → k 5 = .error m → k 6 = .error m →
      retryP k desc options = .error (preErrMsg m ("Failed to " ++ desc))) := by
  refine ⟨?_, rfl, ?_⟩
  · intro α k desc o₁ o₂
    rfl
  · intro α k desc m options h1 h2 h3 h4 h5 h6
    simp [retryP, promiseRetry, defaultRetryOptions, retryLoop, h1, h2, h3, h4, h5, h6]

/-- Attempt oracle failing on the first six attempts and succeeding on the
seventh, for the C10 witness. -/
def sixFailK (i : Nat) : Except String Nat :=
  if i ≤ 6 then .error "boom" else .ok 42

/-- A custom retry policy allowing one hundred retries, for the C10
witness. -/
def customOptions : RetryOptions :=
  { retries := 100, factor := 3, minTimeout := 1, maxTimeout := 10000, randomize := false }

/-- Witness for C10: even with a custom policy of one hundred retries,
retryP fails after the default six attempts with the wrapped error — while
promiseRetry under the custom policy itself would have reached the seventh
attempt and succeeded. -/
theorem c10_retryP_ignores_options_witness :
    sixFailK 1 = .error "boom" ∧ sixFailK 2 = .error "boom" ∧ sixFailK 3 = .error "boom" ∧
    sixFailK 4 = .error "boom" ∧ sixFailK 5 = .error "boom" ∧ sixFailK 6 = .error "boom" ∧
    retryP sixFailK "create thing" customOptions =
      .error (preErrMsg "boom" "Failed to create thing") ∧
    retryP sixFailK "create thing" customOptions =
      retryP sixFailK "create thing" defaultRetryOptions ∧
    promiseRetry customOptions sixFailK = .ok 42 :=
  ⟨rfl, rfl, rfl, rfl, rfl, rfl,
   c10_retryP_ignores_options.2.2 sixFailK "create thing" "boom" customOptions
     rfl rfl rfl rfl rfl rfl,
   c10_retryP_ignores_options.1 sixFailK "create thing" customOptions defaultRetryOptions,
   rfl⟩

end K8
